import Mathlib

/-!
Verification of the chess rules engines of this repository.

The repository contains two engine variants:
* a 2D (8x8) engine (the raylib 2D chess source, here namespace `Chess2D`),
  whose moves carry a `PreviousState` snapshot used by an exact `undo_move`;
* a 3D (3x8x8) engine (`threeDChess_raylib.c`, here namespace `Chess3D`),
  whose moves carry no snapshot and whose undo paths are simplified.

Both engines are embedded shallowly: C arrays become functions out of `Fin`,
C `int` coordinates become `Int`, in-place mutation becomes explicit state
passing (functions that mutate the board through a pointer return the final
board).  Fields that C leaves uninitialized at move-generation time (the
non-capture part of `PreviousState`) are given fixed default values here;
`make_move` overwrites all of them before they are ever read, as in C.
-/

set_option maxHeartbeats 1000000
set_option maxRecDepth 100000

/-- The `enum Piece` shared by both engine variants. -/
inductive Piece where
  | EMPTY | PAWN | KNIGHT | BISHOP | ROOK | QUEEN | KING
  deriving DecidableEq, Repr

/-- The piece/player colour enum (`PlayerColor` in the 2D engine,
`PieceColor` in the 3D engine; the constants are identical). -/
inductive PlayerColor where
  | WHITE | BLACK | NONE
  deriving DecidableEq, Repr

/-- `struct Square` of both engines. -/
structure Square where
  piece : Piece
  color : PlayerColor
  deriving DecidableEq, Repr

open Piece PlayerColor

namespace Chess2D

/-- `struct PreviousState` of the 2D engine: everything `undo_move` restores. -/
structure PreviousState where
  captured_piece : Piece
  captured_color : PlayerColor
  white_castle_kingside : Bool
  white_castle_queenside : Bool
  black_castle_kingside : Bool
  black_castle_queenside : Bool
  en_passant_row : Int
  en_passant_col : Int
  halfmove_clock : Int
  deriving DecidableEq, Repr

/-- `struct Move` of the 2D engine (the AI-only `score` field included). -/
structure Move where
  from_row : Int
  from_col : Int
  to_row : Int
  to_col : Int
  promotion : Piece
  score : Int
  previous_state : PreviousState
  deriving DecidableEq, Repr

/-- `struct Board` of the 2D engine.  The 8x8 array of squares is a function
out of `Fin 8`; all scalar fields mirror the C struct. -/
structure Board where
  squares : Fin 8 → Fin 8 → Square
  current_player : PlayerColor
  white_castle_kingside : Bool
  white_castle_queenside : Bool
  black_castle_kingside : Bool
  black_castle_queenside : Bool
  en_passant_row : Int
  en_passant_col : Int
  halfmove_clock : Int
  fullmove_number : Int

attribute [ext] Board

instance : DecidableEq Board := fun b1 b2 =>
  decidable_of_iff (b1.squares = b2.squares ∧ b1.current_player = b2.current_player ∧
      b1.white_castle_kingside = b2.white_castle_kingside ∧
      b1.white_castle_queenside = b2.white_castle_queenside ∧
      b1.black_castle_kingside = b2.black_castle_kingside ∧
      b1.black_castle_queenside = b2.black_castle_queenside ∧
      b1.en_passant_row = b2.en_passant_row ∧ b1.en_passant_col = b2.en_passant_col ∧
      b1.halfmove_clock = b2.halfmove_clock ∧ b1.fullmove_number = b2.fullmove_number)
    (by
      constructor
      · rintro ⟨h1, h2, h3, h4, h5, h6, h7, h8, h9, h10⟩
        cases b1; cases b2; simp_all
      · rintro rfl; simp)

/-- `is_valid_position` of the 2D engine. -/
def is_valid_position (row col : Int) : Prop :=
  0 ≤ row ∧ row < 8 ∧ 0 ≤ col ∧ col < 8

instance (row col : Int) : Decidable (is_valid_position row col) := by
  unfold is_valid_position; infer_instance

/-- Read `board->squares[row][col]`; out-of-range reads (which the C code never
performs on the paths modelled here) return a junk empty square. -/
def Board.get (b : Board) (row col : Int) : Square :=
  if h : is_valid_position row col then
    b.squares ⟨row.toNat, by have h1 := h.1; have h2 := h.2.1; omega⟩
      ⟨col.toNat, by have h1 := h.2.2.1; have h2 := h.2.2.2; omega⟩
  else ⟨EMPTY, NONE⟩

/-- Write `board->squares[row][col] = sq`; out-of-range writes are no-ops. -/
def Board.setSq (b : Board) (row col : Int) (sq : Square) : Board :=
  { b with squares := fun r c =>
      if (r : Int) = row ∧ (c : Int) = col then sq else b.squares r c }

/-- Fields of `PreviousState` that move generation does not initialize in C
(they are written by `make_move` before being read); fixed defaults here. -/
def genState (cap_piece : Piece) (cap_color : PlayerColor) : PreviousState :=
  { captured_piece := cap_piece
    captured_color := cap_color
    white_castle_kingside := false
    white_castle_queenside := false
    black_castle_kingside := false
    black_castle_queenside := false
    en_passant_row := -1
    en_passant_col := -1
    halfmove_clock := 0 }

/-- Build a generated move (`score` is likewise uninitialized in C; 0 here). -/
def mkMove (fr fc tr tc : Int) (promo : Piece) (cap_piece : Piece)
    (cap_color : PlayerColor) : Move :=
  { from_row := fr, from_col := fc, to_row := tr, to_col := tc,
    promotion := promo, score := 0,
    previous_state := genState cap_piece cap_color }

def promo_pieces : List Piece := [QUEEN, ROOK, BISHOP, KNIGHT]

/-- `generate_pawn_moves` of the 2D engine. -/
def generate_pawn_moves (b : Board) (row col : Int) : List Move :=
  let direction : Int := if (b.get row col).color = WHITE then -1 else 1
  let start_row : Int := if (b.get row col).color = WHITE then 6 else 1
  let current_color := (b.get row col).color
  let opponent_color := if current_color = WHITE then BLACK else WHITE
  let promotion_rank : Int := if current_color = WHITE then 0 else 7
  let next_row := row + direction
  let forward :=
    if is_valid_position next_row col ∧ (b.get next_row col).piece = EMPTY then
      (if next_row = promotion_rank then
        promo_pieces.map (fun p => mkMove row col next_row col p EMPTY NONE)
      else
        [mkMove row col next_row col EMPTY EMPTY NONE]) ++
      (if row = start_row ∧ is_valid_position (row + 2 * direction) col ∧
          (b.get (row + 2 * direction) col).piece = EMPTY then
        [mkMove row col (row + 2 * direction) col EMPTY EMPTY NONE]
      else [])
    else []
  let captures := ([-1, 1] : List Int).flatMap (fun col_offset =>
    let capture_col := col + col_offset
    if is_valid_position next_row capture_col then
      if (b.get next_row capture_col).piece ≠ EMPTY ∧
          (b.get next_row capture_col).color = opponent_color then
        if next_row = promotion_rank then
          promo_pieces.map (fun p => mkMove row col next_row capture_col p
            (b.get next_row capture_col).piece (b.get next_row capture_col).color)
        else
          [mkMove row col next_row capture_col EMPTY
            (b.get next_row capture_col).piece (b.get next_row capture_col).color]
      else if next_row = b.en_passant_row ∧ capture_col = b.en_passant_col ∧
          (b.get next_row capture_col).piece = EMPTY then
        [mkMove row col next_row capture_col EMPTY PAWN opponent_color]
      else []
    else [])
  forward ++ captures

def knight_offsets : List (Int × Int) :=
  [(2, 1), (2, -1), (-2, 1), (-2, -1), (1, 2), (1, -2), (-1, 2), (-1, -2)]

/-- `generate_knight_moves` of the 2D engine. -/
def generate_knight_moves (b : Board) (row col : Int) : List Move :=
  knight_offsets.flatMap (fun d =>
    let new_row := row + d.1
    let new_col := col + d.2
    if is_valid_position new_row new_col ∧
        (b.get new_row new_col).color ≠ (b.get row col).color then
      [mkMove row col new_row new_col EMPTY
        (b.get new_row new_col).piece (b.get new_row new_col).color]
    else [])

/-- The `while` loop of `generate_directional_moves`, with explicit fuel;
8 steps always leave the 8x8 board, as in C. -/
def directional_aux (b : Board) (row col : Int) (cur_color : PlayerColor)
    (row_dir col_dir : Int) : Nat → Int → Int → List Move
  | 0, _, _ => []
  | fuel + 1, nr, nc =>
    if is_valid_position nr nc then
      if (b.get nr nc).piece = EMPTY then
        mkMove row col nr nc EMPTY EMPTY NONE ::
          directional_aux b row col cur_color row_dir col_dir fuel
            (nr + row_dir) (nc + col_dir)
      else if (b.get nr nc).color ≠ cur_color then
        [mkMove row col nr nc EMPTY (b.get nr nc).piece (b.get nr nc).color]
      else []
    else []

/-- `generate_directional_moves` of the 2D engine. -/
def generate_directional_moves (b : Board) (row col row_dir col_dir : Int) :
    List Move :=
  directional_aux b row col ((b.get row col).color) row_dir col_dir 8
    (row + row_dir) (col + col_dir)

def bishop_dirs : List (Int × Int) := [(1, 1), (1, -1), (-1, 1), (-1, -1)]

def rook_dirs : List (Int × Int) := [(1, 0), (-1, 0), (0, 1), (0, -1)]

/-- `generate_bishop_moves` of the 2D engine. -/
def generate_bishop_moves (b : Board) (row col : Int) : List Move :=
  bishop_dirs.flatMap (fun d => generate_directional_moves b row col d.1 d.2)

/-- `generate_rook_moves` of the 2D engine. -/
def generate_rook_moves (b : Board) (row col : Int) : List Move :=
  rook_dirs.flatMap (fun d => generate_directional_moves b row col d.1 d.2)

/-- `generate_queen_moves` of the 2D engine. -/
def generate_queen_moves (b : Board) (row col : Int) : List Move :=
  generate_bishop_moves b row col ++ generate_rook_moves b row col

/-- The row_dir/col_dir double loop of `generate_king_moves`, in C order. -/
def king_offsets : List (Int × Int) :=
  [(-1, -1), (-1, 0), (-1, 1), (0, -1), (0, 1), (1, -1), (1, 0), (1, 1)]

/-- `generate_king_moves` of the 2D engine (no castling generation). -/
def generate_king_moves (b : Board) (row col : Int) : List Move :=
  king_offsets.flatMap (fun d =>
    let new_row := row + d.1
    let new_col := col + d.2
    if is_valid_position new_row new_col ∧
        (b.get new_row new_col).color ≠ (b.get row col).color then
      [mkMove row col new_row new_col EMPTY
        (b.get new_row new_col).piece (b.get new_row new_col).color]
    else [])

/-- `generate_pseudo_legal_moves` of the 2D engine. -/
def generate_pseudo_legal_moves (b : Board) : List Move :=
  (List.range 8).flatMap (fun r =>
    (List.range 8).flatMap (fun c =>
      let row : Int := r
      let col : Int := c
      if (b.get row col).piece ≠ EMPTY ∧ (b.get row col).color = b.current_player then
        match (b.get row col).piece with
        | PAWN => generate_pawn_moves b row col
        | KNIGHT => generate_knight_moves b row col
        | BISHOP => generate_bishop_moves b row col
        | ROOK => generate_rook_moves b row col
        | QUEEN => generate_queen_moves b row col
        | KING => generate_king_moves b row col
        | EMPTY => []
      else []))

/-- `make_move` of the 2D engine.  In C, `make_move` mutates the board and also
writes the pre-move snapshot into `move->previous_state` through a
cast-away-const pointer; here it returns the updated board together with the
updated move. -/
def make_move (b : Board) (m : Move) : Board × Move :=
  let prev : PreviousState :=
    { captured_piece := m.previous_state.captured_piece
      captured_color := m.previous_state.captured_color
      white_castle_kingside := b.white_castle_kingside
      white_castle_queenside := b.white_castle_queenside
      black_castle_kingside := b.black_castle_kingside
      black_castle_queenside := b.black_castle_queenside
      en_passant_row := b.en_passant_row
      en_passant_col := b.en_passant_col
      halfmove_clock := b.halfmove_clock }
  let m2 : Move := { m with previous_state := prev }
  let moving_piece := (b.get m.from_row m.from_col).piece
  let moving_color := (b.get m.from_row m.from_col).color
  let is_pawn_move := moving_piece = PAWN
  let is_capture := prev.captured_piece ≠ EMPTY
  let b1 :=
    if moving_piece = KING then
      let col_diff := m.to_col - m.from_col
      let b1a :=
        if col_diff.natAbs = 2 then
          let rook_from_col : Int := if col_diff > 0 then 7 else 0
          let rook_to_col : Int := if col_diff > 0 then 5 else 3
          let rook_row := m.from_row
          (b.setSq rook_row rook_to_col (b.get rook_row rook_from_col)).setSq
            rook_row rook_from_col ⟨EMPTY, NONE⟩
        else b
      if moving_color = WHITE then
        { b1a with white_castle_kingside := false, white_castle_queenside := false }
      else
        { b1a with black_castle_kingside := false, black_castle_queenside := false }
    else b
  let en_passant_capture :=
    is_pawn_move ∧ m.to_row = prev.en_passant_row ∧ m.to_col = prev.en_passant_col ∧
      prev.captured_piece = PAWN ∧ (b1.get m.to_row m.to_col).piece = EMPTY
  let b2 := if en_passant_capture then b1.setSq m.from_row m.to_col ⟨EMPTY, NONE⟩ else b1
  let placed : Piece := if m.promotion ≠ EMPTY then m.promotion else moving_piece
  let b3 := (b2.setSq m.to_row m.to_col ⟨placed, moving_color⟩).setSq
    m.from_row m.from_col ⟨EMPTY, NONE⟩
  let b4 :=
    if moving_piece = PAWN ∧ (m.to_row - m.from_row).natAbs = 2 then
      { b3 with en_passant_row := (m.from_row + m.to_row) / 2, en_passant_col := m.from_col }
    else
      { b3 with en_passant_row := -1, en_passant_col := -1 }
  let b5 :=
    if moving_piece = ROOK then
      if moving_color = WHITE then
        if m.from_row = 7 ∧ m.from_col = 0 then { b4 with white_castle_queenside := false }
        else if m.from_row = 7 ∧ m.from_col = 7 then { b4 with white_castle_kingside := false }
        else b4
      else
        if m.from_row = 0 ∧ m.from_col = 0 then { b4 with black_castle_queenside := false }
        else if m.from_row = 0 ∧ m.from_col = 7 then { b4 with black_castle_kingside := false }
        else b4
    else b4
  let b6 :=
    if prev.captured_piece = ROOK then
      if m.to_row = 7 ∧ m.to_col = 0 then { b5 with white_castle_queenside := false }
      else if m.to_row = 7 ∧ m.to_col = 7 then { b5 with white_castle_kingside := false }
      else if m.to_row = 0 ∧ m.to_col = 0 then { b5 with black_castle_queenside := false }
      else if m.to_row = 0 ∧ m.to_col = 7 then { b5 with black_castle_kingside := false }
      else b5
    else b5
  let b7 :=
    if is_pawn_move ∨ is_capture then { b6 with halfmove_clock := 0 }
    else { b6 with halfmove_clock := b6.halfmove_clock + 1 }
  let b8 :=
    if b.current_player = BLACK then { b7 with fullmove_number := b7.fullmove_number + 1 }
    else b7
  let b9 := { b8 with current_player := if moving_color = WHITE then BLACK else WHITE }
  (b9, m2)

/-- `undo_move` of the 2D engine. -/
def undo_move (b : Board) (m : Move) : Board :=
  let previous_player := if b.current_player = WHITE then BLACK else WHITE
  let moved_piece_type_on_board := (b.get m.to_row m.to_col).piece
  let original_moved_piece :=
    if m.promotion ≠ EMPTY then PAWN else moved_piece_type_on_board
  let b1 := { b with
    white_castle_kingside := m.previous_state.white_castle_kingside
    white_castle_queenside := m.previous_state.white_castle_queenside
    black_castle_kingside := m.previous_state.black_castle_kingside
    black_castle_queenside := m.previous_state.black_castle_queenside
    en_passant_row := m.previous_state.en_passant_row
    en_passant_col := m.previous_state.en_passant_col
    halfmove_clock := m.previous_state.halfmove_clock }
  let b2 := b1.setSq m.from_row m.from_col ⟨original_moved_piece, previous_player⟩
  let captured_piece := m.previous_state.captured_piece
  let captured_color := m.previous_state.captured_color
  let en_passant_capture :=
    original_moved_piece = PAWN ∧ m.to_row = b1.en_passant_row ∧
      m.to_col = b1.en_passant_col ∧ captured_piece = PAWN
  let b3 :=
    if en_passant_capture then
      (b2.setSq m.to_row m.to_col ⟨EMPTY, NONE⟩).setSq
        m.from_row m.to_col ⟨PAWN, captured_color⟩
    else
      b2.setSq m.to_row m.to_col ⟨captured_piece, captured_color⟩
  let b4 :=
    if original_moved_piece = KING ∧ (m.to_col - m.from_col).natAbs = 2 then
      let rook_from_col : Int := if m.to_col - m.from_col > 0 then 7 else 0
      let rook_to_col : Int := if m.to_col - m.from_col > 0 then 5 else 3
      let rook_row := m.from_row
      (b3.setSq rook_row rook_from_col (b3.get rook_row rook_to_col)).setSq
        rook_row rook_to_col ⟨EMPTY, NONE⟩
    else b3
  let b5 :=
    if b4.current_player = WHITE then { b4 with fullmove_number := b4.fullmove_number - 1 }
    else b4
  { b5 with current_player := previous_player }

def all_dirs : List (Int × Int) :=
  [(1, 0), (-1, 0), (0, 1), (0, -1), (1, 1), (1, -1), (-1, 1), (-1, -1)]

/-- The inner `for (j = 1; ; j++)` sliding-attack scan of `is_square_attacked`,
with explicit fuel (8 steps always leave the board). -/
def attack_ray (b : Board) (attacker_color : PlayerColor) (dr dc : Int) :
    Nat → Int → Int → Bool
  | 0, _, _ => false
  | fuel + 1, nr, nc =>
    if is_valid_position nr nc then
      if (b.get nr nc).piece ≠ EMPTY then
        decide ((b.get nr nc).color = attacker_color ∧
          ((b.get nr nc).piece = QUEEN ∨
            ((dr ≠ 0 ∧ dc ≠ 0) ∧ (b.get nr nc).piece = BISHOP) ∨
            ((dr = 0 ∨ dc = 0) ∧ (b.get nr nc).piece = ROOK)))
      else attack_ray b attacker_color dr dc fuel (nr + dr) (nc + dc)
    else false

/-- `is_square_attacked` of the 2D engine. -/
def is_square_attacked (b : Board) (row col : Int) (attacker_color : PlayerColor) :
    Bool :=
  let pawn_dir : Int := if attacker_color = WHITE then 1 else -1
  let attack_row := row + pawn_dir
  if is_valid_position attack_row (col - 1) ∧
      (b.get attack_row (col - 1)).piece = PAWN ∧
      (b.get attack_row (col - 1)).color = attacker_color then true
  else if is_valid_position attack_row (col + 1) ∧
      (b.get attack_row (col + 1)).piece = PAWN ∧
      (b.get attack_row (col + 1)).color = attacker_color then true
  else if knight_offsets.any (fun d =>
      decide (is_valid_position (row + d.1) (col + d.2) ∧
        (b.get (row + d.1) (col + d.2)).piece = KNIGHT ∧
        (b.get (row + d.1) (col + d.2)).color = attacker_color)) then true
  else if all_dirs.any (fun d =>
      attack_ray b attacker_color d.1 d.2 8 (row + d.1) (col + d.2)) then true
  else king_offsets.any (fun d =>
      decide (is_valid_position (row + d.1) (col + d.2) ∧
        (b.get (row + d.1) (col + d.2)).piece = KING ∧
        (b.get (row + d.1) (col + d.2)).color = attacker_color))

/-- Row-major scan order of `find_king`. -/
def board_coords : List (Int × Int) :=
  (List.range 8).flatMap (fun r => (List.range 8).map (fun c => ((r : Int), (c : Int))))

/-- `find_king` of the 2D engine: C returns a success flag plus out-parameters;
here an `Option` of the coordinates. -/
def find_king (b : Board) (king_color : PlayerColor) : Option (Int × Int) :=
  board_coords.find? (fun p =>
    decide ((b.get p.1 p.2).piece = KING ∧ (b.get p.1 p.2).color = king_color))

/-- `is_king_in_check` of the 2D engine (missing king: not in check). -/
def is_king_in_check (b : Board) (king_color : PlayerColor) : Bool :=
  match find_king b king_color with
  | none => false
  | some kpos =>
      is_square_attacked b kpos.1 kpos.2 (if king_color = WHITE then BLACK else WHITE)

/-- The filtering loop of `generate_legal_moves`: make each pseudo-legal move on
the working copy, keep it (with the snapshot `make_move` wrote into it) iff the
mover's king is not in check, then undo on the working copy. -/
def legal_filter_loop (current_player : PlayerColor) :
    List Move → Board → List Move
  | [], _ => []
  | m :: rest, temp_board =>
    let made := make_move temp_board m
    let keep := ! is_king_in_check made.1 current_player
    let temp2 := undo_move made.1 made.2
    if keep then made.2 :: legal_filter_loop current_player rest temp2
    else legal_filter_loop current_player rest temp2

/-- `generate_legal_moves` of the 2D engine: simulates on `temp_board`, a copy
of the caller's board. -/
def generate_legal_moves (b : Board) : List Move :=
  legal_filter_loop b.current_player (generate_pseudo_legal_moves b) b

/-- `generate_legal_moves` as seen through the caller's `struct Board *`:
the function copies `*board` into `temp_board` and never writes through the
pointer again, so the caller's board at return is the input board. -/
def generate_legal_moves_caller (b : Board) : Board × List Move :=
  let temp_board := b
  (b, legal_filter_loop temp_board.current_player
    (generate_pseudo_legal_moves temp_board) temp_board)

/-- The `back_row` array of `init_board`. -/
def back_row (c : Nat) : Piece :=
  if c = 0 ∨ c = 7 then ROOK
  else if c = 1 ∨ c = 6 then KNIGHT
  else if c = 2 ∨ c = 5 then BISHOP
  else if c = 3 then QUEEN
  else KING

/-- `init_board` of the 2D engine. -/
def init_board : Board :=
  { squares := fun r c =>
      if r.val = 1 then ⟨PAWN, BLACK⟩
      else if r.val = 6 then ⟨PAWN, WHITE⟩
      else if r.val = 0 then ⟨back_row c.val, BLACK⟩
      else if r.val = 7 then ⟨back_row c.val, WHITE⟩
      else ⟨EMPTY, NONE⟩
    current_player := WHITE
    white_castle_kingside := true
    white_castle_queenside := true
    black_castle_kingside := true
    black_castle_queenside := true
    en_passant_row := -1
    en_passant_col := -1
    halfmove_clock := 0
    fullmove_number := 1 }

def pawn_pst : List (List Int) :=
  [[0, 0, 0, 0, 0, 0, 0, 0],
   [50, 50, 50, 50, 50, 50, 50, 50],
   [10, 10, 20, 30, 30, 20, 10, 10],
   [5, 5, 10, 25, 25, 10, 5, 5],
   [0, 0, 0, 20, 20, 0, 0, 0],
   [5, -5, -10, 0, 0, -10, -5, 5],
   [5, 10, 10, -20, -20, 10, 10, 5],
   [0, 0, 0, 0, 0, 0, 0, 0]]

def knight_pst : List (List Int) :=
  [[-50, -40, -30, -30, -30, -30, -40, -50],
   [-40, -20, 0, 0, 0, 0, -20, -40],
   [-30, 0, 10, 15, 15, 10, 0, -30],
   [-30, 5, 15, 20, 20, 15, 5, -30],
   [-30, 0, 15, 20, 20, 15, 0, -30],
   [-30, 5, 10, 15, 15, 10, 5, -30],
   [-40, -20, 0, 5, 5, 0, -20, -40],
   [-50, -40, -30, -30, -30, -30, -40, -50]]

def bishop_pst : List (List Int) :=
  [[-20, -10, -10, -10, -10, -10, -10, -20],
   [-10, 0, 0, 0, 0, 0, 0, -10],
   [-10, 0, 5, 10, 10, 5, 0, -10],
   [-10, 5, 5, 10, 10, 5, 5, -10],
   [-10, 0, 10, 10, 10, 10, 0, -10],
   [-10, 10, 10, 10, 10, 10, 10, -10],
   [-10, 5, 0, 0, 0, 0, 5, -10],
   [-20, -10, -10, -10, -10, -10, -10, -20]]

def rook_pst : List (List Int) :=
  [[0, 0, 0, 0, 0, 0, 0, 0],
   [5, 10, 10, 10, 10, 10, 10, 5],
   [-5, 0, 0, 0, 0, 0, 0, -5],
   [-5, 0, 0, 0, 0, 0, 0, -5],
   [-5, 0, 0, 0, 0, 0, 0, -5],
   [-5, 0, 0, 0, 0, 0, 0, -5],
   [-5, 0, 0, 0, 0, 0, 0, -5],
   [0, 0, 0, 5, 5, 0, 0, 0]]

def queen_pst : List (List Int) :=
  [[-20, -10, -10, -5, -5, -10, -10, -20],
   [-10, 0, 0, 0, 0, 0, 0, -10],
   [-10, 0, 5, 5, 5, 5, 0, -10],
   [-5, 0, 5, 5, 5, 5, 0, -5],
   [0, 0, 5, 5, 5, 5, 0, -5],
   [-10, 5, 5, 5, 5, 5, 0, -10],
   [-10, 0, 5, 0, 0, 0, 0, -10],
   [-20, -10, -10, -5, -5, -10, -10, -20]]

def king_pst : List (List Int) :=
  [[-30, -40, -40, -50, -50, -40, -40, -30],
   [-30, -40, -40, -50, -50, -40, -40, -30],
   [-30, -40, -40, -50, -50, -40, -40, -30],
   [-30, -40, -40, -50, -50, -40, -40, -30],
   [-20, -30, -30, -40, -40, -30, -30, -20],
   [-10, -20, -20, -20, -20, -20, -20, -10],
   [20, 20, 0, 0, 0, 0, 20, 20],
   [20, 30, 10, 0, 0, 10, 30, 20]]

def pst_get (t : List (List Int)) (r c : Nat) : Int := (t.getD r []).getD c 0

def pst_for (p : Piece) : List (List Int) :=
  match p with
  | PAWN => pawn_pst
  | KNIGHT => knight_pst
  | BISHOP => bishop_pst
  | ROOK => rook_pst
  | QUEEN => queen_pst
  | KING => king_pst
  | EMPTY => []

/-- The `piece_values` array of `evaluate_board`. -/
def piece_value (p : Piece) : Int :=
  match p with
  | EMPTY => 0
  | PAWN => 100
  | KNIGHT => 320
  | BISHOP => 330
  | ROOK => 500
  | QUEEN => 900
  | KING => 20000

/-- `evaluate_board` of the 2D engine: material plus piece-square tables,
always from White's perspective (Black looks tables up mirrored row-wise). -/
def evaluate_board (b : Board) : Int :=
  (List.range 8).foldl (fun acc (r : Nat) =>
    (List.range 8).foldl (fun acc2 (c : Nat) =>
      let sq := b.get (r : Int) (c : Int)
      if sq.piece ≠ EMPTY then
        if sq.color = WHITE then
          acc2 + piece_value sq.piece + pst_get (pst_for sq.piece) r c
        else
          acc2 - piece_value sq.piece - pst_get (pst_for sq.piece) (7 - r) c
      else acc2) acc) 0

/-- The `piece_values` array of `score_move` (no value for king capture). -/
def piece_value_sm (p : Piece) : Int :=
  match p with
  | EMPTY => 0
  | PAWN => 100
  | KNIGHT => 320
  | BISHOP => 330
  | ROOK => 500
  | QUEEN => 900
  | KING => 0

/-- `score_move` of the 2D engine (promotion bonus, then MVV-LVA). -/
def score_move (b : Board) (m : Move) : Int :=
  if m.promotion ≠ EMPTY then piece_value_sm m.promotion + 10000
  else if m.previous_state.captured_piece ≠ EMPTY then
    piece_value_sm m.previous_state.captured_piece -
      piece_value_sm (b.get m.from_row m.from_col).piece / 10 + 1000
  else 0

/-- The `qsort(compare_moves)` call: sort by `score`, descending.  C's `qsort`
leaves the relative order of equal scores unspecified; a stable descending
merge sort is the deterministic refinement used here. -/
def sort_moves (ms : List Move) : List Move :=
  ms.mergeSort (fun a b => b.score ≤ a.score)

def INFINITY_CONST : Int := 1000000

def MATE_SCORE : Int := INFINITY_CONST - 100

/-- The result messages `is_game_over` writes into its string buffer,
as an enumeration (`minimax` only tests whether the text says checkmate). -/
inductive GameResultMsg where
  | Checkmate (winner : PlayerColor)
  | Stalemate
  | FiftyMoveDraw
  | MissingKing
  | Ongoing
  deriving DecidableEq, Repr

/-- `is_game_over` of the 2D engine: (return value, message written). -/
def is_game_over (b : Board) : Bool × GameResultMsg :=
  let legal_move_count := (generate_legal_moves b).length
  let in_check := is_king_in_check b b.current_player
  if legal_move_count = 0 then
    if in_check then
      (true, .Checkmate (if b.current_player = WHITE then BLACK else WHITE))
    else (true, .Stalemate)
  else if b.halfmove_clock ≥ 100 then (true, .FiftyMoveDraw)
  else if (find_king b WHITE).isNone ∨ (find_king b BLACK).isNone then
    (true, .MissingKing)
  else (false, .Ongoing)

/-- The maximizing loop of `minimax` (make, recurse, undo, fold max, update
alpha, break when `beta <= alpha`); `f` is the recursive call at depth-1. -/
def ab_max (f : Board → Int → Int → Int) :
    List Move → Board → Int → Int → Int → Int
  | [], _, _, _, max_eval => max_eval
  | mv :: rest, bd, alpha, beta, max_eval =>
    let made := make_move bd mv
    let ev := f made.1 alpha beta
    let bd2 := undo_move made.1 made.2
    let max2 := if ev > max_eval then ev else max_eval
    let alpha2 := if alpha > max2 then alpha else max2
    if beta ≤ alpha2 then max2 else ab_max f rest bd2 alpha2 beta max2

/-- The minimizing loop of `minimax`. -/
def ab_min (f : Board → Int → Int → Int) :
    List Move → Board → Int → Int → Int → Int
  | [], _, _, _, min_eval => min_eval
  | mv :: rest, bd, alpha, beta, min_eval =>
    let made := make_move bd mv
    let ev := f made.1 alpha beta
    let bd2 := undo_move made.1 made.2
    let min2 := if ev < min_eval then ev else min_eval
    let beta2 := if beta < min2 then beta else min2
    if beta2 ≤ alpha then min2 else ab_min f rest bd2 alpha beta2 min2

/-- `minimax` of the 2D engine.  The game-over test comes first (returning
`±(MATE_SCORE + depth)` when the message says checkmate, else 0), then the
depth-0 static evaluation, then the alpha-beta loop over ordered legal moves. -/
def minimax (b : Board) (depth : Nat) (alpha beta : Int)
    (maximizing_player : Bool) : Int :=
  let go := is_game_over b
  if go.1 then
    match go.2 with
    | .Checkmate _ =>
        if b.current_player = WHITE then -MATE_SCORE - (depth : Int)
        else MATE_SCORE + (depth : Int)
    | _ => 0
  else
    match depth with
    | 0 => evaluate_board b
    | d + 1 =>
      let moves := sort_moves ((generate_legal_moves b).map
        (fun m => { m with score := score_move b m }))
      if maximizing_player then
        ab_max (fun b2 a2 b3 => minimax b2 d a2 b3 false) moves b alpha beta
          (-INFINITY_CONST - 1)
      else
        ab_min (fun b2 a2 b3 => minimax b2 d a2 b3 true) moves b alpha beta
          (INFINITY_CONST + 1)

/-- The opponent colour, as computed by the C sources
(`(c == WHITE) ? BLACK : WHITE`). -/
def opponent (c : PlayerColor) : PlayerColor := if c = WHITE then BLACK else WHITE

/-- Pawn movement direction (`(color == WHITE) ? -1 : 1`). -/
def pawn_dir_of (c : PlayerColor) : Int := if c = WHITE then -1 else 1

/-- Square bookkeeping invariant of reachable boards: empty squares carry
colour NONE. -/
def squaresInv (b : Board) : Prop :=
  ∀ r c : Fin 8, (b.squares r c).piece = EMPTY → (b.squares r c).color = NONE

instance (b : Board) : Decidable (squaresInv b) := by
  unfold squaresInv; infer_instance

/-- En-passant invariant of reachable boards: when the target square is set it
is the empty square skipped by the opposing double push of the previous ply,
with the pushed pawn still behind it. -/
def epInv (b : Board) : Prop :=
  (b.en_passant_row = -1 ∧ b.en_passant_col = -1) ∨
  (b.current_player = WHITE ∧ b.en_passant_row = 2 ∧
    0 ≤ b.en_passant_col ∧ b.en_passant_col < 8 ∧
    b.get 2 b.en_passant_col = ⟨EMPTY, NONE⟩ ∧
    b.get 3 b.en_passant_col = ⟨PAWN, BLACK⟩) ∨
  (b.current_player = BLACK ∧ b.en_passant_row = 5 ∧
    0 ≤ b.en_passant_col ∧ b.en_passant_col < 8 ∧
    b.get 5 b.en_passant_col = ⟨EMPTY, NONE⟩ ∧
    b.get 4 b.en_passant_col = ⟨PAWN, WHITE⟩)

instance (b : Board) : Decidable (epInv b) := by
  unfold epInv; infer_instance

/-- Shape of a generated en-passant capture. -/
def EPShape (b : Board) (m : Move) : Prop :=
  (b.get m.from_row m.from_col).piece = PAWN ∧
  m.to_row = b.en_passant_row ∧ m.to_col = b.en_passant_col ∧
  m.to_row = m.from_row + pawn_dir_of b.current_player ∧
  (m.to_col - m.from_col).natAbs = 1 ∧
  (b.get m.to_row m.to_col).piece = EMPTY ∧
  m.previous_state.captured_piece = PAWN ∧
  m.previous_state.captured_color = opponent b.current_player ∧
  m.promotion = EMPTY

/-- Everything pseudo-legal move generation guarantees about an emitted move:
coordinates are in range, the moved piece belongs to the side to move, kings
step at most one column, a promotion move moves a pawn, a two-row pawn move is
a straight double push, and the recorded capture information matches the board
(en-passant moves have their own shape). -/
structure MoveOK (b : Board) (m : Move) : Prop where
  from_valid : is_valid_position m.from_row m.from_col
  to_valid : is_valid_position m.to_row m.to_col
  owned : (b.get m.from_row m.from_col).color = b.current_player
  occupied : (b.get m.from_row m.from_col).piece ≠ EMPTY
  tgt : (b.get m.to_row m.to_col).piece = EMPTY ∨
    (b.get m.to_row m.to_col).color ≠ b.current_player
  promo_pawn : m.promotion ≠ EMPTY → (b.get m.from_row m.from_col).piece = PAWN
  king_step : (b.get m.from_row m.from_col).piece = KING →
    (m.to_col - m.from_col).natAbs ≤ 1
  pawn_double : (b.get m.from_row m.from_col).piece = PAWN →
    (m.to_row - m.from_row).natAbs = 2 →
    m.to_col = m.from_col ∧ m.promotion = EMPTY ∧
    m.to_row = m.from_row + 2 * pawn_dir_of b.current_player
  cap : EPShape b m ∨
    ((⟨m.previous_state.captured_piece, m.previous_state.captured_color⟩ : Square) =
        b.get m.to_row m.to_col ∨
      (m.previous_state.captured_piece = EMPTY ∧
        m.previous_state.captured_color = NONE ∧
        (b.get m.to_row m.to_col).piece = EMPTY))

/-- An unreachable 2D position: the en-passant target square (2,2) is
occupied by a black pawn.  White king d4 (4,3), white pawn b5 (3,1),
black pawn (2,2), black king (0,7), white to move. -/
def B0 : Board :=
  { squares := fun r c =>
      if r.val = 0 ∧ c.val = 7 then ⟨KING, BLACK⟩
      else if r.val = 2 ∧ c.val = 2 then ⟨PAWN, BLACK⟩
      else if r.val = 3 ∧ c.val = 1 then ⟨PAWN, WHITE⟩
      else if r.val = 4 ∧ c.val = 3 then ⟨KING, WHITE⟩
      else ⟨EMPTY, NONE⟩
    current_player := WHITE
    white_castle_kingside := false
    white_castle_queenside := false
    black_castle_kingside := false
    black_castle_queenside := false
    en_passant_row := 2
    en_passant_col := 2
    halfmove_clock := 0
    fullmove_number := 1 }

/-- A bare-kings 2D position: white king (4,4), black king (0,0), white to
move. -/
def bKK : Board :=
  { squares := fun r c =>
      if r.val = 4 ∧ c.val = 4 then ⟨KING, WHITE⟩
      else if r.val = 0 ∧ c.val = 0 then ⟨KING, BLACK⟩
      else ⟨EMPTY, NONE⟩
    current_player := WHITE
    white_castle_kingside := false
    white_castle_queenside := false
    black_castle_kingside := false
    black_castle_queenside := false
    en_passant_row := -1
    en_passant_col := -1
    halfmove_clock := 0
    fullmove_number := 1 }

/-- A 2D checkmate: black king (0,7) mated by white queen (1,6) defended by
the white king (2,6); black to move. -/
def Bmate2 : Board :=
  { squares := fun r c =>
      if r.val = 0 ∧ c.val = 7 then ⟨KING, BLACK⟩
      else if r.val = 1 ∧ c.val = 6 then ⟨QUEEN, WHITE⟩
      else if r.val = 2 ∧ c.val = 6 then ⟨KING, WHITE⟩
      else ⟨EMPTY, NONE⟩
    current_player := BLACK
    white_castle_kingside := false
    white_castle_queenside := false
    black_castle_kingside := false
    black_castle_queenside := false
    en_passant_row := -1
    en_passant_col := -1
    halfmove_clock := 0
    fullmove_number := 1 }

/-- An empty 2D board (no king of either colour). -/
def E2 : Board :=
  { squares := fun _ _ => ⟨EMPTY, NONE⟩
    current_player := WHITE
    white_castle_kingside := false
    white_castle_queenside := false
    black_castle_kingside := false
    black_castle_queenside := false
    en_passant_row := -1
    en_passant_col := -1
    halfmove_clock := 0
    fullmove_number := 1 }

/-- The double pawn push e2-e4 as the 2D generator emits it. -/
def mvE2E4 : Move := mkMove 6 4 4 4 EMPTY EMPTY NONE

/-- The king move (4,4)-(3,4) on `bKK` as stored by the legality filter
(the generator move with the snapshot `make_move` wrote into it). -/
def mvKK : Move := (make_move bKK (mkMove 4 4 3 4 EMPTY EMPTY NONE)).2

/-- The generator form of the same king move. -/
def mvKK2 : Move := mkMove 4 4 3 4 EMPTY EMPTY NONE

end Chess2D

namespace Chess3D

/-- `struct Move` of the 3D engine (`threeDChess_raylib.c`): no undo snapshot,
only an `is_capture` flag. -/
structure Move where
  from_layer : Int
  from_row : Int
  from_col : Int
  to_layer : Int
  to_row : Int
  to_col : Int
  promotion : Piece
  score : Int
  is_capture : Bool
  deriving DecidableEq, Repr

/-- `struct Board` of the 3D engine: 3x8x8 squares plus scalar state. -/
structure Board where
  squares : Fin 3 → Fin 8 → Fin 8 → Square
  current_player : PlayerColor
  white_castle_kingside : Bool
  white_castle_queenside : Bool
  black_castle_kingside : Bool
  black_castle_queenside : Bool
  en_passant_layer : Int
  en_passant_row : Int
  en_passant_col : Int
  halfmove_clock : Int
  fullmove_number : Int

attribute [ext] Board

instance : DecidableEq Board := fun b1 b2 =>
  decidable_of_iff (b1.squares = b2.squares ∧ b1.current_player = b2.current_player ∧
      b1.white_castle_kingside = b2.white_castle_kingside ∧
      b1.white_castle_queenside = b2.white_castle_queenside ∧
      b1.black_castle_kingside = b2.black_castle_kingside ∧
      b1.black_castle_queenside = b2.black_castle_queenside ∧
      b1.en_passant_layer = b2.en_passant_layer ∧
      b1.en_passant_row = b2.en_passant_row ∧ b1.en_passant_col = b2.en_passant_col ∧
      b1.halfmove_clock = b2.halfmove_clock ∧ b1.fullmove_number = b2.fullmove_number)
    (by
      constructor
      · rintro ⟨h1, h2, h3, h4, h5, h6, h7, h8, h9, h10, h11⟩
        cases b1; cases b2; simp_all
      · rintro rfl; simp)

/-- `is_valid_position` of the 3D engine. -/
def is_valid_position (layer row col : Int) : Prop :=
  0 ≤ layer ∧ layer < 3 ∧ 0 ≤ row ∧ row < 8 ∧ 0 ≤ col ∧ col < 8

instance (layer row col : Int) : Decidable (is_valid_position layer row col) := by
  unfold is_valid_position; infer_instance

/-- Read `board->squares[layer][row][col]`. -/
def Board.get (b : Board) (layer row col : Int) : Square :=
  if h : is_valid_position layer row col then
    b.squares ⟨layer.toNat, by have h1 := h.1; have h2 := h.2.1; omega⟩
      ⟨row.toNat, by have h1 := h.2.2.1; have h2 := h.2.2.2.1; omega⟩
      ⟨col.toNat, by have h1 := h.2.2.2.2.1; have h2 := h.2.2.2.2.2; omega⟩
  else ⟨EMPTY, NONE⟩

/-- Write `board->squares[layer][row][col] = sq` (no-op out of range). -/
def Board.setSq (b : Board) (layer row col : Int) (sq : Square) : Board :=
  { b with squares := fun l r c =>
      if (l : Int) = layer ∧ (r : Int) = row ∧ (c : Int) = col then sq
      else b.squares l r c }

/-- Build a generated 3D move (C initializes `score` to 0 in the literals). -/
def mk3 (fl fr fc tl tr tc : Int) (promo : Piece) (iscap : Bool) : Move :=
  { from_layer := fl, from_row := fr, from_col := fc,
    to_layer := tl, to_row := tr, to_col := tc,
    promotion := promo, score := 0, is_capture := iscap }

def promo_pieces : List Piece := [QUEEN, ROOK, BISHOP, KNIGHT]

def knight_offsets : List (Int × Int) :=
  [(2, 1), (2, -1), (-2, 1), (-2, -1), (1, 2), (1, -2), (-1, 2), (-1, -2)]

/-- `find_king` of the 3D engine (layer-major scan order). -/
def find_king (b : Board) (king_color : PlayerColor) :
    Option (Int × Int × Int) :=
  ((List.range 3).flatMap (fun l =>
    (List.range 8).flatMap (fun r =>
      (List.range 8).map (fun c => ((l : Int), (r : Int), (c : Int)))))).find?
    (fun p => decide ((b.get p.1 p.2.1 p.2.2).piece = KING ∧
      (b.get p.1 p.2.1 p.2.2).color = king_color))

/-- The 26 sliding-attack directions of `is_square_attacked`, in C order
(`(l_dir, r_dir, c_dir)`). -/
def all_dirs : List (Int × Int × Int) :=
  [(0, 1, 0), (0, -1, 0), (0, 0, 1), (0, 0, -1),
   (0, 1, 1), (0, 1, -1), (0, -1, 1), (0, -1, -1),
   (-1, 1, 0), (-1, -1, 0), (-1, 0, 1), (-1, 0, -1), (-1, 0, 0),
   (-1, 1, 1), (-1, 1, -1), (-1, -1, 1), (-1, -1, -1),
   (1, 1, 0), (1, -1, 0), (1, 0, 1), (1, 0, -1), (1, 0, 0),
   (1, 1, 1), (1, 1, -1), (1, -1, 1), (1, -1, -1)]

/-- The 26 king-adjacency offsets, in C loop order. -/
def king_offsets : List (Int × Int × Int) :=
  ([-1, 0, 1] : List Int).flatMap (fun lo =>
    ([-1, 0, 1] : List Int).flatMap (fun ro =>
      ([-1, 0, 1] : List Int).flatMap (fun co =>
        if lo = 0 ∧ ro = 0 ∧ co = 0 then [] else [(lo, ro, co)])))

/-- The sliding scan of 3D `is_square_attacked`, with fuel. -/
def attack_ray (b : Board) (attacker_color : PlayerColor) (ld rd cd : Int) :
    Nat → Int → Int → Int → Bool
  | 0, _, _, _ => false
  | fuel + 1, nl, nr, nc =>
    if is_valid_position nl nr nc then
      if (b.get nl nr nc).piece ≠ EMPTY then
        decide ((b.get nl nr nc).color = attacker_color ∧
          ((b.get nl nr nc).piece = QUEEN ∨
            ((b.get nl nr nc).piece = ROOK ∧
              ((¬(rd ≠ 0 ∧ cd ≠ 0) ∧ (rd ≠ 0 ∨ cd ≠ 0)) ∨
                (ld ≠ 0 ∧ rd = 0 ∧ cd = 0) ∨
                (ld ≠ 0 ∧ (¬(rd ≠ 0 ∧ cd ≠ 0) ∧ (rd ≠ 0 ∨ cd ≠ 0))))) ∨
            ((b.get nl nr nc).piece = BISHOP ∧
              ((rd ≠ 0 ∧ cd ≠ 0) ∨ (ld ≠ 0 ∧ (rd ≠ 0 ∧ cd ≠ 0))))))
      else attack_ray b attacker_color ld rd cd fuel (nl + ld) (nr + rd) (nc + cd)
    else false

/-- `is_square_attacked` of the 3D engine. -/
def is_square_attacked (b : Board) (tl tr tc : Int)
    (attacker_color : PlayerColor) : Bool :=
  let pawn_direction : Int := if attacker_color = WHITE then -1 else 1
  let pawn_start_row := tr - pawn_direction
  if ([-1, 1] : List Int).any (fun off =>
      decide (is_valid_position tl pawn_start_row (tc + off) ∧
        (b.get tl pawn_start_row (tc + off)).piece = PAWN ∧
        (b.get tl pawn_start_row (tc + off)).color = attacker_color)) then true
  else if ([-1, 1] : List Int).any (fun lo =>
      0 ≤ tl + lo ∧ tl + lo < 3 ∧
      ([-1, 1] : List Int).any (fun off =>
        decide (is_valid_position (tl + lo) pawn_start_row (tc + off) ∧
          (b.get (tl + lo) pawn_start_row (tc + off)).piece = PAWN ∧
          (b.get (tl + lo) pawn_start_row (tc + off)).color = attacker_color))) then
    true
  else if ([-1, 0, 1] : List Int).any (fun lo =>
      0 ≤ tl + lo ∧ tl + lo < 3 ∧
      knight_offsets.any (fun d =>
        decide (is_valid_position (tl + lo) (tr + d.1) (tc + d.2) ∧
          (b.get (tl + lo) (tr + d.1) (tc + d.2)).piece = KNIGHT ∧
          (b.get (tl + lo) (tr + d.1) (tc + d.2)).color = attacker_color))) then
    true
  else if all_dirs.any (fun d =>
      attack_ray b attacker_color d.1 d.2.1 d.2.2 8
        (tl + d.1) (tr + d.2.1) (tc + d.2.2)) then true
  else king_offsets.any (fun d =>
      decide (is_valid_position (tl + d.1) (tr + d.2.1) (tc + d.2.2) ∧
        (b.get (tl + d.1) (tr + d.2.1) (tc + d.2.2)).piece = KING ∧
        (b.get (tl + d.1) (tr + d.2.1) (tc + d.2.2)).color = attacker_color))

/-- `is_king_in_check` of the 3D engine (missing king: not in check). -/
def is_king_in_check (b : Board) (king_color : PlayerColor) : Bool :=
  match find_king b king_color with
  | none => false
  | some kpos =>
      is_square_attacked b kpos.1 kpos.2.1 kpos.2.2
        (if king_color = WHITE then BLACK else WHITE)

/-- `generate_pawn_moves` of the 3D engine. -/
def generate_pawn_moves (b : Board) (layer row col : Int) : List Move :=
  let direction : Int := if (b.get layer row col).color = WHITE then -1 else 1
  let start_row : Int := if (b.get layer row col).color = WHITE then 6 else 1
  let promotion_row : Int := if (b.get layer row col).color = WHITE then 0 else 7
  let next_row := row + direction
  let same_layer_forward :=
    if is_valid_position layer next_row col ∧
        (b.get layer next_row col).piece = EMPTY then
      (if next_row = promotion_row then
        promo_pieces.map (fun p => mk3 layer row col layer next_row col p false)
      else
        [mk3 layer row col layer next_row col EMPTY false]) ++
      (if row = start_row ∧ is_valid_position layer (row + 2 * direction) col ∧
          (b.get layer (row + 2 * direction) col).piece = EMPTY then
        [mk3 layer row col layer (row + 2 * direction) col EMPTY false]
      else [])
    else []
  let same_layer_captures := ([-1, 1] : List Int).flatMap (fun col_offset =>
    let capture_col := col + col_offset
    if is_valid_position layer next_row capture_col then
      if (b.get layer next_row capture_col).piece ≠ EMPTY ∧
          (b.get layer next_row capture_col).color ≠ (b.get layer row col).color then
        if next_row = promotion_row then
          promo_pieces.map (fun p => mk3 layer row col layer next_row capture_col p true)
        else
          [mk3 layer row col layer next_row capture_col EMPTY true]
      else if layer = b.en_passant_layer ∧ next_row = b.en_passant_row ∧
          capture_col = b.en_passant_col ∧
          (b.get layer row col).color ≠
            (b.get layer (b.en_passant_row - direction) b.en_passant_col).color then
        [mk3 layer row col layer next_row capture_col EMPTY true]
      else []
    else [])
  let inter_layer := ([-1, 1] : List Int).flatMap (fun layer_change =>
    let new_layer := layer + layer_change
    if 0 ≤ new_layer ∧ new_layer < 3 then
      (if is_valid_position new_layer next_row col ∧
          (b.get new_layer next_row col).piece = EMPTY then
        [mk3 layer row col new_layer next_row col EMPTY false]
      else []) ++
      ([-1, 1] : List Int).flatMap (fun col_offset =>
        let capture_col := col + col_offset
        if is_valid_position new_layer next_row capture_col ∧
            (b.get new_layer next_row capture_col).piece ≠ EMPTY ∧
            (b.get new_layer next_row capture_col).color ≠
              (b.get layer row col).color then
          [mk3 layer row col new_layer next_row capture_col EMPTY true]
        else [])
    else [])
  same_layer_forward ++ same_layer_captures ++ inter_layer

/-- `generate_knight_moves` of the 3D engine. -/
def generate_knight_moves (b : Board) (layer row col : Int) : List Move :=
  ([-1, 0, 1] : List Int).flatMap (fun l_offset =>
    let current_layer := layer + l_offset
    if 0 ≤ current_layer ∧ current_layer < 3 then
      knight_offsets.flatMap (fun d =>
        let new_row := row + d.1
        let new_col := col + d.2
        if is_valid_position current_layer new_row new_col ∧
            ((b.get current_layer new_row new_col).piece = EMPTY ∨
              (b.get current_layer new_row new_col).color ≠
                (b.get layer row col).color) then
          [mk3 layer row col current_layer new_row new_col EMPTY
            (decide ((b.get current_layer new_row new_col).piece ≠ EMPTY))]
        else [])
    else [])

/-- The `while` loop of 3D `generate_directional_moves`, with fuel. -/
def directional_aux (b : Board) (layer row col : Int) (cur_color : PlayerColor)
    (row_dir col_dir layer_dir : Int) : Nat → Int → Int → Int → List Move
  | 0, _, _, _ => []
  | fuel + 1, nl, nr, nc =>
    if is_valid_position nl nr nc then
      if (b.get nl nr nc).piece = EMPTY then
        mk3 layer row col nl nr nc EMPTY false ::
          directional_aux b layer row col cur_color row_dir col_dir layer_dir fuel
            (nl + layer_dir) (nr + row_dir) (nc + col_dir)
      else if (b.get nl nr nc).color ≠ cur_color then
        [mk3 layer row col nl nr nc EMPTY true]
      else []
    else []

/-- `generate_directional_moves` of the 3D engine. -/
def generate_directional_moves (b : Board) (layer row col row_dir col_dir layer_dir : Int) :
    List Move :=
  directional_aux b layer row col ((b.get layer row col).color) row_dir col_dir
    layer_dir 8 (layer + layer_dir) (row + row_dir) (col + col_dir)

def bishop_dirs : List (Int × Int) := [(1, 1), (1, -1), (-1, 1), (-1, -1)]

/-- `generate_bishop_moves` of the 3D engine. -/
def generate_bishop_moves (b : Board) (layer row col : Int) : List Move :=
  bishop_dirs.flatMap (fun d => generate_directional_moves b layer row col d.1 d.2 0) ++
  ([-1, 1] : List Int).flatMap (fun layer_change =>
    bishop_dirs.flatMap (fun d =>
      generate_directional_moves b layer row col d.1 d.2 layer_change))

def rook_dirs : List (Int × Int) := [(1, 0), (-1, 0), (0, 1), (0, -1)]

/-- `generate_rook_moves` of the 3D engine. -/
def generate_rook_moves (b : Board) (layer row col : Int) : List Move :=
  rook_dirs.flatMap (fun d => generate_directional_moves b layer row col d.1 d.2 0) ++
  ([-1, 1] : List Int).flatMap (fun layer_change =>
    generate_directional_moves b layer row col 1 0 layer_change ++
    generate_directional_moves b layer row col (-1) 0 layer_change ++
    generate_directional_moves b layer row col 0 1 layer_change ++
    generate_directional_moves b layer row col 0 (-1) layer_change ++
    generate_directional_moves b layer row col 0 0 layer_change)

/-- `generate_queen_moves` of the 3D engine. -/
def generate_queen_moves (b : Board) (layer row col : Int) : List Move :=
  generate_bishop_moves b layer row col ++ generate_rook_moves b layer row col

/-- `generate_king_moves` of the 3D engine: the 26 adjacent squares, then
castling on layer 0 only, guarded by home square, not-in-check, the
castling-right flag, empty between squares and unattacked crossing squares. -/
def generate_king_moves (b : Board) (layer row col : Int) : List Move :=
  let player_color := (b.get layer row col).color
  let opponent_color := if player_color = WHITE then BLACK else WHITE
  let normal := king_offsets.flatMap (fun d =>
    let new_layer := layer + d.1
    let new_row := row + d.2.1
    let new_col := col + d.2.2
    if is_valid_position new_layer new_row new_col ∧
        ((b.get new_layer new_row new_col).piece = EMPTY ∨
          (b.get new_layer new_row new_col).color ≠ player_color) then
      [mk3 layer row col new_layer new_row new_col EMPTY
        (decide ((b.get new_layer new_row new_col).piece ≠ EMPTY))]
    else [])
  let castling :=
    if layer = 0 then
      let king_row : Int := if player_color = WHITE then 7 else 0
      if row = king_row ∧ col = 4 then
        if is_king_in_check b player_color = false then
          (if (if player_color = WHITE then b.white_castle_kingside
              else b.black_castle_kingside) = true ∧
              (b.get 0 king_row 5).piece = EMPTY ∧
              (b.get 0 king_row 6).piece = EMPTY ∧
              is_square_attacked b 0 king_row 5 opponent_color = false ∧
              is_square_attacked b 0 king_row 6 opponent_color = false then
            [mk3 layer row col layer king_row 6 EMPTY false]
          else []) ++
          (if (if player_color = WHITE then b.white_castle_queenside
              else b.black_castle_queenside) = true ∧
              (b.get 0 king_row 3).piece = EMPTY ∧
              (b.get 0 king_row 2).piece = EMPTY ∧
              (b.get 0 king_row 1).piece = EMPTY ∧
              is_square_attacked b 0 king_row 3 opponent_color = false ∧
              is_square_attacked b 0 king_row 2 opponent_color = false then
            [mk3 layer row col layer king_row 2 EMPTY false]
          else [])
        else []
      else []
    else []
  normal ++ castling

/-- `generate_moves_for_piece` of the 3D engine. -/
def generate_moves_for_piece (b : Board) (layer row col : Int) : List Move :=
  match (b.get layer row col).piece with
  | PAWN => generate_pawn_moves b layer row col
  | KNIGHT => generate_knight_moves b layer row col
  | BISHOP => generate_bishop_moves b layer row col
  | ROOK => generate_rook_moves b layer row col
  | QUEEN => generate_queen_moves b layer row col
  | KING => generate_king_moves b layer row col
  | EMPTY => []

/-- `generate_pseudo_legal_moves` of the 3D engine. -/
def generate_pseudo_legal_moves (b : Board) : List Move :=
  (List.range 3).flatMap (fun l =>
    (List.range 8).flatMap (fun r =>
      (List.range 8).flatMap (fun c =>
        if (b.get (l : Int) (r : Int) (c : Int)).color = b.current_player then
          generate_moves_for_piece b (l : Int) (r : Int) (c : Int)
        else [])))

/-- `make_move` of the 3D engine, as a pure function on boards.  `moved_piece`
and `target_square` are read from the incoming board, then the en-passant
capture clearing, the castling rook shift, the placement (with promotion), the
from-square clearing and the game-state updates are applied in the C order. -/
def make_move (b : Board) (m : Move) : Board :=
  let moved_piece := b.get m.from_layer m.from_row m.from_col
  let target_square := b.get m.to_layer m.to_row m.to_col
  let is_en_passant_capture :=
    moved_piece.piece = PAWN ∧ m.to_col ≠ m.from_col ∧
      target_square.piece = EMPTY ∧ m.to_layer = b.en_passant_layer ∧
      m.to_row = b.en_passant_row ∧ m.to_col = b.en_passant_col
  let b1 :=
    if is_en_passant_capture then
      b.setSq m.from_layer m.from_row m.to_col ⟨EMPTY, NONE⟩
    else b
  let b2 :=
    if moved_piece.piece = KING ∧ (m.to_col - m.from_col).natAbs = 2 ∧
        m.from_layer = 0 ∧ m.to_layer = 0 then
      if m.to_col = 6 then
        ((b1.setSq 0 m.from_row 5 (b1.get 0 m.from_row 7)).setSq 0 m.from_row 7
          ⟨EMPTY, NONE⟩)
      else
        ((b1.setSq 0 m.from_row 3 (b1.get 0 m.from_row 0)).setSq 0 m.from_row 0
          ⟨EMPTY, NONE⟩)
    else b1
  let b3 :=
    if m.promotion ≠ EMPTY then
      b2.setSq m.to_layer m.to_row m.to_col ⟨m.promotion, moved_piece.color⟩
    else b2.setSq m.to_layer m.to_row m.to_col moved_piece
  let b4 := b3.setSq m.from_layer m.from_row m.from_col ⟨EMPTY, NONE⟩
  let b5 :=
    if moved_piece.piece = PAWN ∧ (m.to_row - m.from_row).natAbs = 2 ∧
        m.from_layer = m.to_layer then
      { b4 with en_passant_layer := m.from_layer,
                en_passant_row := (m.from_row + m.to_row) / 2,
                en_passant_col := m.from_col }
    else
      { b4 with en_passant_layer := -1, en_passant_row := -1,
                en_passant_col := -1 }
  let b6 :=
    if m.from_layer = 0 then
      if moved_piece.piece = KING then
        if moved_piece.color = WHITE then
          { b5 with white_castle_kingside := false,
                    white_castle_queenside := false }
        else
          { b5 with black_castle_kingside := false,
                    black_castle_queenside := false }
      else if moved_piece.piece = ROOK then
        if moved_piece.color = WHITE then
          let w1 := if m.from_row = 7 ∧ m.from_col = 0 then
            { b5 with white_castle_queenside := false } else b5
          if m.from_row = 7 ∧ m.from_col = 7 then
            { w1 with white_castle_kingside := false } else w1
        else
          let w1 := if m.from_row = 0 ∧ m.from_col = 0 then
            { b5 with black_castle_queenside := false } else b5
          if m.from_row = 0 ∧ m.from_col = 7 then
            { w1 with black_castle_kingside := false } else w1
      else b5
    else b5
  let b7 :=
    if m.to_layer = 0 then
      let w1 := if m.to_row = 7 ∧ m.to_col = 0 then
        { b6 with white_castle_queenside := false } else b6
      let w2 := if m.to_row = 7 ∧ m.to_col = 7 then
        { w1 with white_castle_kingside := false } else w1
      let w3 := if m.to_row = 0 ∧ m.to_col = 0 then
        { w2 with black_castle_queenside := false } else w2
      if m.to_row = 0 ∧ m.to_col = 7 then
        { w3 with black_castle_kingside := false } else w3
    else b6
  let b8 :=
    if moved_piece.piece = PAWN ∨ target_square.piece ≠ EMPTY ∨
        is_en_passant_capture then
      { b7 with halfmove_clock := 0 }
    else { b7 with halfmove_clock := b7.halfmove_clock + 1 }
  let b9 :=
    if b8.current_player = BLACK then
      { b8 with fullmove_number := b8.fullmove_number + 1 }
    else b8
  { b9 with current_player := if b9.current_player = WHITE then BLACK else WHITE }

/-- The 3D engine's `undo_move`: the source marks it "Simplified version for
AI - DOES NOT FULLY REVERT STATE".  It copies the to-square back to the
from-square, blanks the to-square in both branches of the `is_capture` test,
and flips the player; castling rights, en passant and the clocks stay as
`make_move` left them. -/
def undo_move (b : Board) (m : Move) : Board :=
  let moved_piece := b.get m.to_layer m.to_row m.to_col
  let b1 := b.setSq m.from_layer m.from_row m.from_col moved_piece
  let b2 :=
    if m.is_capture then b1.setSq m.to_layer m.to_row m.to_col ⟨EMPTY, NONE⟩
    else b1.setSq m.to_layer m.to_row m.to_col ⟨EMPTY, NONE⟩
  { b2 with current_player :=
      if b2.current_player = WHITE then BLACK else WHITE }

/-- The filtering loop of the 3D `generate_legal_moves`.  It mutates the
caller's board: for each pseudo-legal move it saves the to-square, plays the
move, tests the saved player's king, then restores only the two squares and
the player (the WARNING comments in the source note that castling rights,
en passant state and the clocks are not restored). -/
def legal_loop3 (current_player : PlayerColor) :
    List Move → Board → Board × List Move
  | [], bd => (bd, [])
  | m :: rest, bd =>
    let captured_square := bd.get m.to_layer m.to_row m.to_col
    let b1 := make_move bd m
    let keep := ¬ is_king_in_check b1 current_player
    let moved_piece := b1.get m.to_layer m.to_row m.to_col
    let b2 := b1.setSq m.from_layer m.from_row m.from_col moved_piece
    let b3 := b2.setSq m.to_layer m.to_row m.to_col captured_square
    let b4 := { b3 with current_player := current_player }
    let res := legal_loop3 current_player rest b4
    (res.1, if keep then m :: res.2 else res.2)

/-- `generate_legal_moves` of the 3D engine: the final state of the caller's
board together with the kept moves. -/
def generate_legal_moves (b : Board) : Board × List Move :=
  legal_loop3 b.current_player (generate_pseudo_legal_moves b) b

/-- `evaluate_board` of the 3D engine: material with a +10 centre bonus and a
+15-per-layer bonus, white positive. -/
def evaluate_board (b : Board) : Int :=
  (List.range 3).foldl (fun acc (layer : Nat) =>
    (List.range 8).foldl (fun acc (row : Nat) =>
      (List.range 8).foldl (fun acc (col : Nat) =>
        let current_square := b.get (layer : Int) (row : Int) (col : Int)
        if current_square.piece ≠ EMPTY then
          let base : Int :=
            match current_square.piece with
            | EMPTY => 0
            | PAWN => 100
            | KNIGHT => 320
            | BISHOP => 330
            | ROOK => 500
            | QUEEN => 900
            | KING => 20000
          let base := if 2 ≤ row ∧ row ≤ 5 ∧ 2 ≤ col ∧ col ≤ 5 then
            base + 10 else base
          let value := base + (layer : Int) * 15
          if current_square.color = WHITE then acc + value else acc - value
        else acc) acc) acc) 0

/-- `is_game_over` of the 3D engine: true exactly when the current player has
no legal move; the mutated board is returned alongside.  The fifty-move rule
and other draws are only TODO comments in the source. -/
def is_game_over (b : Board) : Bool × Board :=
  let g := generate_legal_moves b
  (g.2.length = 0, g.1)

def INFINITY : Int := 1000000

/-- The maximizing loop of the 3D `minimax`: save the to-square and the
player, make the move, recurse, fold the maximum, update alpha, then apply
the inline simplified undo (two squares and the player only) and break when
`beta <= alpha`. -/
def ab_max3 (rec : Board → Int → Int → Int × Board) (beta : Int) :
    List Move → Board → Int → Int → Int × Board
  | [], bd, _, max_eval => (max_eval, bd)
  | m :: rest, bd, alpha, max_eval =>
    let captured_square := bd.get m.to_layer m.to_row m.to_col
    let original_player := bd.current_player
    let b1 := make_move bd m
    let r := rec b1 alpha beta
    let max2 := if r.1 > max_eval then r.1 else max_eval
    let alpha2 := if alpha > r.1 then alpha else r.1
    let moved_piece := r.2.get m.to_layer m.to_row m.to_col
    let b2 := r.2.setSq m.from_layer m.from_row m.from_col moved_piece
    let b3 := b2.setSq m.to_layer m.to_row m.to_col captured_square
    let b4 := { b3 with current_player := original_player }
    if beta ≤ alpha2 then (max2, b4)
    else ab_max3 rec beta rest b4 alpha2 max2

/-- The minimizing loop of the 3D `minimax`. -/
def ab_min3 (rec : Board → Int → Int → Int × Board) (alpha : Int) :
    List Move → Board → Int → Int → Int × Board
  | [], bd, _, min_eval => (min_eval, bd)
  | m :: rest, bd, beta, min_eval =>
    let captured_square := bd.get m.to_layer m.to_row m.to_col
    let original_player := bd.current_player
    let b1 := make_move bd m
    let r := rec b1 alpha beta
    let min2 := if r.1 < min_eval then r.1 else min_eval
    let beta2 := if beta < r.1 then beta else r.1
    let moved_piece := r.2.get m.to_layer m.to_row m.to_col
    let b2 := r.2.setSq m.from_layer m.from_row m.from_col moved_piece
    let b3 := b2.setSq m.to_layer m.to_row m.to_col captured_square
    let b4 := { b3 with current_player := original_player }
    if beta2 ≤ alpha then (min2, b4)
    else ab_min3 rec alpha rest b4 beta2 min2

/-- `minimax` of the 3D engine, threading the mutated board.  At depth 0 the
short-circuit `depth == 0 || is_game_over(board)` skips the game-over test;
otherwise the test runs (mutating the board through its legal-move
generation), a game-over position returns the static evaluation, and the
zero-legal-moves branch after the second generation returns `±INFINITY` when
the king is in check and 0 otherwise. -/
def minimax (b : Board) (depth : Nat) (alpha beta : Int)
    (maximizing_player : Bool) : Int × Board :=
  match depth with
  | 0 => (evaluate_board b, b)
  | d + 1 =>
    let go := is_game_over b
    if go.1 then (evaluate_board go.2, go.2)
    else
      let g := generate_legal_moves go.2
      if g.2.length = 0 then
        (if is_king_in_check g.1 g.1.current_player then
          (if maximizing_player then -INFINITY else INFINITY)
        else 0, g.1)
      else if maximizing_player then
        ab_max3 (fun b2 a2 b3 => minimax b2 d a2 b3 false) beta g.2 g.1
          alpha (-INFINITY)
      else
        ab_min3 (fun b2 a2 b3 => minimax b2 d a2 b3 true) alpha g.2 g.1
          beta INFINITY

/-- A bare-kings 3D position: white king (layer 2, 4, 4), black king
(0,0,0), white to move, halfmove clock 0. -/
def BKK3 : Board :=
  { squares := fun l r c =>
      if l.val = 2 ∧ r.val = 4 ∧ c.val = 4 then ⟨KING, WHITE⟩
      else if l.val = 0 ∧ r.val = 0 ∧ c.val = 0 then ⟨KING, BLACK⟩
      else ⟨EMPTY, NONE⟩
    current_player := WHITE
    white_castle_kingside := false
    white_castle_queenside := false
    black_castle_kingside := false
    black_castle_queenside := false
    en_passant_layer := -1
    en_passant_row := -1
    en_passant_col := -1
    halfmove_clock := 0
    fullmove_number := 1 }

/-- A quiet white king move on `BKK3`: (2,4,4) to (2,4,5). -/
def mvK3 : Move := mk3 2 4 4 2 4 5 EMPTY false

/-- A 3D checkmate: black king (0,0,0) mated by the white queen (1,1,1)
defended by the white king (2,2,2); black to move. -/
def Bmate3 : Board :=
  { squares := fun l r c =>
      if l.val = 0 ∧ r.val = 0 ∧ c.val = 0 then ⟨KING, BLACK⟩
      else if l.val = 1 ∧ r.val = 1 ∧ c.val = 1 then ⟨QUEEN, WHITE⟩
      else if l.val = 2 ∧ r.val = 2 ∧ c.val = 2 then ⟨KING, WHITE⟩
      else ⟨EMPTY, NONE⟩
    current_player := BLACK
    white_castle_kingside := false
    white_castle_queenside := false
    black_castle_kingside := false
    black_castle_queenside := false
    en_passant_layer := -1
    en_passant_row := -1
    en_passant_col := -1
    halfmove_clock := 0
    fullmove_number := 1 }

/-- A 3D position where black may castle kingside on layer 0: black king
(0,0,4), black rook (0,0,7), white king far away on (2,7,4). -/
def Bcastle3 : Board :=
  { squares := fun l r c =>
      if l.val = 0 ∧ r.val = 0 ∧ c.val = 4 then ⟨KING, BLACK⟩
      else if l.val = 0 ∧ r.val = 0 ∧ c.val = 7 then ⟨ROOK, BLACK⟩
      else if l.val = 2 ∧ r.val = 7 ∧ c.val = 4 then ⟨KING, WHITE⟩
      else ⟨EMPTY, NONE⟩
    current_player := BLACK
    white_castle_kingside := false
    white_castle_queenside := false
    black_castle_kingside := true
    black_castle_queenside := false
    en_passant_layer := -1
    en_passant_row := -1
    en_passant_col := -1
    halfmove_clock := 0
    fullmove_number := 1 }

/-- Black castles kingside on layer 0. -/
def mvC3 : Move := mk3 0 0 4 0 0 6 EMPTY false

/-- `BKK3` with the halfmove clock already at 100 (a 50-move-rule draw). -/
def Bclock3 : Board := { BKK3 with halfmove_clock := 100 }

/-- A 3D position with a white pawn on its start square (0,6,4) and the two
kings far apart; white to move. -/
def Bpawn3 : Board :=
  { squares := fun l r c =>
      if l.val = 0 ∧ r.val = 6 ∧ c.val = 4 then ⟨PAWN, WHITE⟩
      else if l.val = 2 ∧ r.val = 7 ∧ c.val = 7 then ⟨KING, WHITE⟩
      else if l.val = 0 ∧ r.val = 0 ∧ c.val = 0 then ⟨KING, BLACK⟩
      else ⟨EMPTY, NONE⟩
    current_player := WHITE
    white_castle_kingside := false
    white_castle_queenside := false
    black_castle_kingside := false
    black_castle_queenside := false
    en_passant_layer := -1
    en_passant_row := -1
    en_passant_col := -1
    halfmove_clock := 0
    fullmove_number := 1 }

/-- The double pawn push (0,6,4) to (0,4,4) as the 3D generator emits it. -/
def mvP3 : Move := mk3 0 6 4 0 4 4 EMPTY false

/-- An empty 3D board (no king of either colour). -/
def E3 : Board :=
  { squares := fun _ _ _ => ⟨EMPTY, NONE⟩
    current_player := WHITE
    white_castle_kingside := false
    white_castle_queenside := false
    black_castle_kingside := false
    black_castle_queenside := false
    en_passant_layer := -1
    en_passant_row := -1
    en_passant_col := -1
    halfmove_clock := 0
    fullmove_number := 1 }

end Chess3D

namespace Chess2D

theorem get_eq_squares (b : Board) (r c : Nat) (hr : r < 8) (hc : c < 8) :
    b.get r c = b.squares ⟨r, hr⟩ ⟨c, hc⟩ := by
  unfold Board.get
  rw [dif_pos (by unfold is_valid_position; omega)]
  congr 1

theorem setSq_scalars (b : Board) (row col : Int) (sq : Square) :
    (b.setSq row col sq).current_player = b.current_player ∧
    (b.setSq row col sq).white_castle_kingside = b.white_castle_kingside ∧
    (b.setSq row col sq).white_castle_queenside = b.white_castle_queenside ∧
    (b.setSq row col sq).black_castle_kingside = b.black_castle_kingside ∧
    (b.setSq row col sq).black_castle_queenside = b.black_castle_queenside ∧
    (b.setSq row col sq).en_passant_row = b.en_passant_row ∧
    (b.setSq row col sq).en_passant_col = b.en_passant_col ∧
    (b.setSq row col sq).halfmove_clock = b.halfmove_clock ∧
    (b.setSq row col sq).fullmove_number = b.fullmove_number := by
  unfold Board.setSq; exact ⟨rfl, rfl, rfl, rfl, rfl, rfl, rfl, rfl, rfl⟩

theorem get_setSq_same (b : Board) (row col : Int) (sq : Square)
    (h : is_valid_position row col) : (b.setSq row col sq).get row col = sq := by
  unfold Board.get Board.setSq
  rw [dif_pos h]
  simp only
  rw [if_pos]
  obtain ⟨h1, h2, h3, h4⟩ := h
  constructor <;> simp <;> omega

theorem get_setSq_ne (b : Board) (row col r c : Int) (sq : Square)
    (h : ¬(r = row ∧ c = col)) : (b.setSq row col sq).get r c = b.get r c := by
  unfold Board.get Board.setSq
  by_cases hv : is_valid_position r c
  · rw [dif_pos hv, dif_pos hv]
    simp only
    rw [if_neg]
    intro ⟨h1, h2⟩
    obtain ⟨hv1, hv2, hv3, hv4⟩ := hv
    apply h
    constructor <;> omega
  · rw [dif_neg hv, dif_neg hv]

/-- `MoveOK` for a non-en-passant generated move. -/
theorem moveOK_simple (b : Board) (row col tr tc : Int) (promo capP : Piece)
    (capC : PlayerColor)
    (hfv : is_valid_position row col) (htv : is_valid_position tr tc)
    (hown : (b.get row col).color = b.current_player)
    (hocc : (b.get row col).piece ≠ EMPTY)
    (htgt : (b.get tr tc).piece = EMPTY ∨ (b.get tr tc).color ≠ b.current_player)
    (hpromo : promo ≠ EMPTY → (b.get row col).piece = PAWN)
    (hking : (b.get row col).piece = KING → (tc - col).natAbs ≤ 1)
    (hpd : (b.get row col).piece = PAWN → (tr - row).natAbs = 2 →
      tc = col ∧ promo = EMPTY ∧ tr = row + 2 * pawn_dir_of b.current_player)
    (hcap : (⟨capP, capC⟩ : Square) = b.get tr tc ∨
      (capP = EMPTY ∧ capC = NONE ∧ (b.get tr tc).piece = EMPTY)) :
    MoveOK b (mkMove row col tr tc promo capP capC) :=
  ⟨hfv, htv, hown, hocc, htgt, hpromo, hking, hpd, Or.inr hcap⟩

theorem opponent_ne (c : PlayerColor) : opponent c ≠ c := by
  cases c <;> simp [opponent]

theorem knight_moves_ok (b : Board) (row col : Int)
    (hfv : is_valid_position row col)
    (hown : (b.get row col).color = b.current_player)
    (hp : (b.get row col).piece = KNIGHT)
    (m : Move) (hm : m ∈ generate_knight_moves b row col) : MoveOK b m := by
  unfold generate_knight_moves at hm
  rw [List.mem_flatMap] at hm
  obtain ⟨d, hd, hm⟩ := hm
  dsimp only at hm
  split at hm
  case isFalse => simp at hm
  case isTrue h =>
    rw [List.mem_singleton] at hm
    subst hm
    obtain ⟨hval, hcol⟩ := h
    refine moveOK_simple b row col _ _ _ _ _ hfv hval hown (by simp [hp]) ?_ ?_ ?_ ?_ ?_
    · exact Or.inr (by rw [← hown]; exact hcol)
    · intro hne; simp at hne
    · intro hk; rw [hp] at hk; cases hk
    · intro hk; rw [hp] at hk; cases hk
    · exact Or.inl rfl

theorem king_moves_ok (b : Board) (row col : Int)
    (hfv : is_valid_position row col)
    (hown : (b.get row col).color = b.current_player)
    (hp : (b.get row col).piece = KING)
    (m : Move) (hm : m ∈ generate_king_moves b row col) : MoveOK b m := by
  unfold generate_king_moves at hm
  rw [List.mem_flatMap] at hm
  obtain ⟨d, hd, hm⟩ := hm
  dsimp only at hm
  split at hm
  case isFalse => simp at hm
  case isTrue h =>
    rw [List.mem_singleton] at hm
    subst hm
    obtain ⟨hval, hcol⟩ := h
    refine moveOK_simple b row col _ _ _ _ _ hfv hval hown (by simp [hp]) ?_ ?_ ?_ ?_ ?_
    · exact Or.inr (by rw [← hown]; exact hcol)
    · intro hne; simp at hne
    · intro _
      have : d.2.natAbs ≤ 1 := by fin_cases hd <;> decide
      omega
    · intro hk; rw [hp] at hk; cases hk
    · exact Or.inl rfl

theorem directional_aux_mem (b : Board) (row col : Int) (cc : PlayerColor)
    (rd cd : Int) :
    ∀ (fuel : Nat) (nr nc : Int) (m : Move),
      m ∈ directional_aux b row col cc rd cd fuel nr nc →
      ∃ tr tc, is_valid_position tr tc ∧
        ((m = mkMove row col tr tc EMPTY EMPTY NONE ∧ (b.get tr tc).piece = EMPTY) ∨
         (m = mkMove row col tr tc EMPTY (b.get tr tc).piece (b.get tr tc).color ∧
           (b.get tr tc).piece ≠ EMPTY ∧ (b.get tr tc).color ≠ cc)) := by
  intro fuel
  induction fuel with
  | zero => intro nr nc m hm; simp [directional_aux] at hm
  | succ n ih =>
    intro nr nc m hm
    unfold directional_aux at hm
    split at hm
    case isFalse => simp at hm
    case isTrue hval =>
      split at hm
      case isTrue hempty =>
        rw [List.mem_cons] at hm
        rcases hm with hm | hm
        · exact ⟨nr, nc, hval, Or.inl ⟨hm, hempty⟩⟩
        · exact ih (nr + rd) (nc + cd) m hm
      case isFalse hne =>
        split at hm
        case isTrue hcol =>
          rw [List.mem_singleton] at hm
          exact ⟨nr, nc, hval, Or.inr ⟨hm, hne, hcol⟩⟩
        case isFalse => simp at hm

theorem directional_moves_ok (b : Board) (row col rd cd : Int)
    (hfv : is_valid_position row col)
    (hown : (b.get row col).color = b.current_player)
    (hocc : (b.get row col).piece ≠ EMPTY)
    (hpk : (b.get row col).piece ≠ KING)
    (hpp : (b.get row col).piece ≠ PAWN)
    (m : Move) (hm : m ∈ generate_directional_moves b row col rd cd) :
    MoveOK b m := by
  unfold generate_directional_moves at hm
  obtain ⟨tr, tc, hval, hcase⟩ :=
    directional_aux_mem b row col ((b.get row col).color) rd cd 8
      (row + rd) (col + cd) m hm
  rcases hcase with ⟨rfl, hempty⟩ | ⟨rfl, hne, hcol⟩
  · refine moveOK_simple b row col _ _ _ _ _ hfv hval hown hocc ?_ ?_ ?_ ?_ ?_
    · exact Or.inl hempty
    · intro hne2; simp at hne2
    · intro hk; exact absurd hk hpk
    · intro hk; exact absurd hk hpp
    · exact Or.inr ⟨rfl, rfl, hempty⟩
  · refine moveOK_simple b row col _ _ _ _ _ hfv hval hown hocc ?_ ?_ ?_ ?_ ?_
    · exact Or.inr (by rw [← hown]; exact hcol)
    · intro hne2; simp at hne2
    · intro hk; exact absurd hk hpk
    · intro hk; exact absurd hk hpp
    · exact Or.inl rfl

theorem bishop_moves_ok (b : Board) (row col : Int)
    (hfv : is_valid_position row col)
    (hown : (b.get row col).color = b.current_player)
    (hocc : (b.get row col).piece ≠ EMPTY)
    (hpk : (b.get row col).piece ≠ KING)
    (hpp : (b.get row col).piece ≠ PAWN)
    (m : Move) (hm : m ∈ generate_bishop_moves b row col) : MoveOK b m := by
  unfold generate_bishop_moves at hm
  rw [List.mem_flatMap] at hm
  obtain ⟨d, _, hm⟩ := hm
  exact directional_moves_ok b row col d.1 d.2 hfv hown hocc hpk hpp m hm

theorem rook_moves_ok (b : Board) (row col : Int)
    (hfv : is_valid_position row col)
    (hown : (b.get row col).color = b.current_player)
    (hocc : (b.get row col).piece ≠ EMPTY)
    (hpk : (b.get row col).piece ≠ KING)
    (hpp : (b.get row col).piece ≠ PAWN)
    (m : Move) (hm : m ∈ generate_rook_moves b row col) : MoveOK b m := by
  unfold generate_rook_moves at hm
  rw [List.mem_flatMap] at hm
  obtain ⟨d, _, hm⟩ := hm
  exact directional_moves_ok b row col d.1 d.2 hfv hown hocc hpk hpp m hm

theorem queen_moves_ok (b : Board) (row col : Int)
    (hfv : is_valid_position row col)
    (hown : (b.get row col).color = b.current_player)
    (hocc : (b.get row col).piece ≠ EMPTY)
    (hpk : (b.get row col).piece ≠ KING)
    (hpp : (b.get row col).piece ≠ PAWN)
    (m : Move) (hm : m ∈ generate_queen_moves b row col) : MoveOK b m := by
  unfold generate_queen_moves at hm
  rw [List.mem_append] at hm
  rcases hm with hm | hm
  · exact bishop_moves_ok b row col hfv hown hocc hpk hpp m hm
  · exact rook_moves_ok b row col hfv hown hocc hpk hpp m hm

theorem pawn_dir_of_cases (c : PlayerColor) :
    pawn_dir_of c = -1 ∨ pawn_dir_of c = 1 := by
  unfold pawn_dir_of; by_cases h : c = WHITE <;> simp [h]

/-- `MoveOK` for a generated en-passant capture. -/
theorem moveOK_ep (b : Board) (row col tr tc : Int) (capC : PlayerColor)
    (hfv : is_valid_position row col) (htv : is_valid_position tr tc)
    (hown : (b.get row col).color = b.current_player)
    (hp : (b.get row col).piece = PAWN)
    (hepr : tr = b.en_passant_row) (hepc : tc = b.en_passant_col)
    (hdir : tr = row + pawn_dir_of b.current_player)
    (hoffa : (tc - col).natAbs = 1)
    (hempty : (b.get tr tc).piece = EMPTY)
    (hcapc : capC = opponent b.current_player) :
    MoveOK b (mkMove row col tr tc EMPTY PAWN capC) := by
  refine ⟨hfv, htv, hown, ?_, Or.inl hempty, ?_, ?_, ?_,
    Or.inl ⟨hp, hepr, hepc, hdir, hoffa, hempty, rfl, hcapc, rfl⟩⟩
  · show ¬(b.get row col).piece = EMPTY
    simp [hp]
  · intro h
    exact absurd rfl h
  · intro hk
    have hk2 : (b.get row col).piece = KING := hk
    rw [hp] at hk2
    cases hk2
  · intro _ h2
    have h3 : (tr - row).natAbs = 2 := h2
    rcases pawn_dir_of_cases b.current_player with h4 | h4 <;> rw [h4] at hdir <;> omega

theorem if_opp_ne (c : PlayerColor) : (if c = WHITE then BLACK else WHITE) ≠ c := by
  by_cases h : c = WHITE
  · subst h; simp
  · simp only [if_neg h]
    exact fun hh => h hh.symm

theorem pawn_moves_ok (b : Board) (row col : Int)
    (hfv : is_valid_position row col)
    (hown : (b.get row col).color = b.current_player)
    (hp : (b.get row col).piece = PAWN)
    (m : Move) (hm : m ∈ generate_pawn_moves b row col) : MoveOK b m := by
  unfold generate_pawn_moves at hm
  dsimp only at hm
  rw [hown] at hm
  set dir : Int := (if b.current_player = WHITE then (-1 : Int) else 1) with hdir
  set srow : Int := (if b.current_player = WHITE then (6 : Int) else 1) with hsrow
  set prank : Int := (if b.current_player = WHITE then (0 : Int) else 7) with hprank
  set oppc : PlayerColor := (if b.current_player = WHITE then BLACK else WHITE)
    with hoppc
  have hd2 : dir = -1 ∨ dir = 1 := by
    by_cases h : b.current_player = WHITE <;> simp [hdir, h]
  have hdirpd : dir = pawn_dir_of b.current_player := hdir.trans rfl
  have hoppx : oppc = opponent b.current_player := hoppc.trans rfl
  have hoppne : oppc ≠ b.current_player := by rw [hoppc]; exact if_opp_ne _
  rw [List.mem_append] at hm
  rcases hm with hm | hm
  · -- forward moves
    split at hm
    case isFalse => simp at hm
    case isTrue hcond =>
      obtain ⟨hval, hempty⟩ := hcond
      rw [List.mem_append] at hm
      rcases hm with hm | hm
      · split at hm
        case isTrue hrank =>
          rw [List.mem_map] at hm
          obtain ⟨p, hpmem, rfl⟩ := hm
          refine moveOK_simple b row col _ _ _ _ _ hfv hval hown (by simp [hp]) ?_ ?_ ?_ ?_ ?_
          · exact Or.inl hempty
          · intro _; exact hp
          · intro hk; rw [hp] at hk; cases hk
          · intro _ h2; rcases hd2 with h3 | h3 <;> rw [h3] at h2 <;> omega
          · exact Or.inr ⟨rfl, rfl, hempty⟩
        case isFalse =>
          rw [List.mem_singleton] at hm
          subst hm
          refine moveOK_simple b row col _ _ _ _ _ hfv hval hown (by simp [hp]) ?_ ?_ ?_ ?_ ?_
          · exact Or.inl hempty
          · intro hne; simp at hne
          · intro hk; rw [hp] at hk; cases hk
          · intro _ h2; rcases hd2 with h3 | h3 <;> rw [h3] at h2 <;> omega
          · exact Or.inr ⟨rfl, rfl, hempty⟩
      · split at hm
        case isFalse => simp at hm
        case isTrue hcond2 =>
          obtain ⟨hstart, hval2, hempty2⟩ := hcond2
          rw [List.mem_singleton] at hm
          subst hm
          refine moveOK_simple b row col _ _ _ _ _ hfv hval2 hown (by simp [hp]) ?_ ?_ ?_ ?_ ?_
          · exact Or.inl hempty2
          · intro hne; simp at hne
          · intro hk; rw [hp] at hk; cases hk
          · intro _ _
            refine ⟨rfl, rfl, ?_⟩
            rw [← hdirpd]
          · exact Or.inr ⟨rfl, rfl, hempty2⟩
  · -- capture moves
    rw [List.mem_flatMap] at hm
    obtain ⟨off, hoff, hm⟩ := hm
    split at hm
    case isFalse => simp at hm
    case isTrue hvalc =>
      split at hm
      case isTrue hcond =>
        obtain ⟨hne, hcolopp⟩ := hcond
        split at hm
        case isTrue hrank =>
          rw [List.mem_map] at hm
          obtain ⟨p, hpmem, rfl⟩ := hm
          refine moveOK_simple b row col _ _ _ _ _ hfv hvalc hown (by simp [hp]) ?_ ?_ ?_ ?_ ?_
          · exact Or.inr (by rw [hcolopp]; exact hoppne)
          · intro _; exact hp
          · intro hk; rw [hp] at hk; cases hk
          · intro _ h2; rcases hd2 with h3 | h3 <;> rw [h3] at h2 <;> omega
          · exact Or.inl rfl
        case isFalse =>
          rw [List.mem_singleton] at hm
          subst hm
          refine moveOK_simple b row col _ _ _ _ _ hfv hvalc hown (by simp [hp]) ?_ ?_ ?_ ?_ ?_
          · exact Or.inr (by rw [hcolopp]; exact hoppne)
          · intro hne2; simp at hne2
          · intro hk; rw [hp] at hk; cases hk
          · intro _ h2; rcases hd2 with h3 | h3 <;> rw [h3] at h2 <;> omega
          · exact Or.inl rfl
      case isFalse hnc =>
        split at hm
        case isFalse => simp at hm
        case isTrue hcond3 =>
          obtain ⟨hepr, hepc, hempty3⟩ := hcond3
          rw [List.mem_singleton] at hm
          subst hm
          refine moveOK_ep b row col (row + dir) (col + off) oppc hfv hvalc hown hp
            hepr hepc (by rw [← hdirpd]) ?_ hempty3 hoppx
          simp at hoff
          rcases hoff with h3 | h3 <;> rw [h3] <;> simp

/-- Every move emitted by `generate_pseudo_legal_moves` satisfies `MoveOK`. -/
theorem pseudo_mem_ok (b : Board) (m : Move)
    (hm : m ∈ generate_pseudo_legal_moves b) : MoveOK b m := by
  unfold generate_pseudo_legal_moves at hm
  rw [List.mem_flatMap] at hm
  obtain ⟨r, hr, hm⟩ := hm
  rw [List.mem_flatMap] at hm
  obtain ⟨c, hc, hm⟩ := hm
  rw [List.mem_range] at hr
  rw [List.mem_range] at hc
  dsimp only at hm
  have hfv : is_valid_position (r : Int) (c : Int) := by
    unfold is_valid_position
    constructor
    · omega
    constructor
    · exact_mod_cast hr
    constructor
    · omega
    · exact_mod_cast hc
  split at hm
  case isFalse => simp at hm
  case isTrue hcond =>
    obtain ⟨hocc, hown⟩ := hcond
    cases hpiece : (b.get (r : Int) (c : Int)).piece with
    | EMPTY => exact absurd hpiece hocc
    | PAWN =>
      rw [hpiece] at hm
      exact pawn_moves_ok b r c hfv hown hpiece m hm
    | KNIGHT =>
      rw [hpiece] at hm
      exact knight_moves_ok b r c hfv hown hpiece m hm
    | BISHOP =>
      rw [hpiece] at hm
      exact bishop_moves_ok b r c hfv hown hocc (by simp [hpiece]) (by simp [hpiece]) m hm
    | ROOK =>
      rw [hpiece] at hm
      exact rook_moves_ok b r c hfv hown hocc (by simp [hpiece]) (by simp [hpiece]) m hm
    | QUEEN =>
      rw [hpiece] at hm
      exact queen_moves_ok b r c hfv hown hocc (by simp [hpiece]) (by simp [hpiece]) m hm
    | KING =>
      rw [hpiece] at hm
      exact king_moves_ok b r c hfv hown hpiece m hm

theorem setSq_cur (b : Board) (r c : Int) (v : Square) :
    (b.setSq r c v).current_player = b.current_player := rfl

theorem setSq_wck (b : Board) (r c : Int) (v : Square) :
    (b.setSq r c v).white_castle_kingside = b.white_castle_kingside := rfl

theorem setSq_wcq (b : Board) (r c : Int) (v : Square) :
    (b.setSq r c v).white_castle_queenside = b.white_castle_queenside := rfl

theorem setSq_bck (b : Board) (r c : Int) (v : Square) :
    (b.setSq r c v).black_castle_kingside = b.black_castle_kingside := rfl

theorem setSq_bcq (b : Board) (r c : Int) (v : Square) :
    (b.setSq r c v).black_castle_queenside = b.black_castle_queenside := rfl

theorem setSq_epr (b : Board) (r c : Int) (v : Square) :
    (b.setSq r c v).en_passant_row = b.en_passant_row := rfl

theorem setSq_epc (b : Board) (r c : Int) (v : Square) :
    (b.setSq r c v).en_passant_col = b.en_passant_col := rfl

theorem setSq_half (b : Board) (r c : Int) (v : Square) :
    (b.setSq r c v).halfmove_clock = b.halfmove_clock := rfl

theorem setSq_full (b : Board) (r c : Int) (v : Square) :
    (b.setSq r c v).fullmove_number = b.fullmove_number := rfl

theorem setSq_squares_apply (X : Board) (r0 c0 : Int) (v : Square) (rr cc : Fin 8) :
    (X.setSq r0 c0 v).squares rr cc =
      if (rr : Int) = r0 ∧ (cc : Int) = c0 then v else X.squares rr cc := rfl

theorem squares_eq_get (b : Board) (rr cc : Fin 8) :
    b.squares rr cc = b.get (rr : Int) (cc : Int) := by
  rw [get_eq_squares b rr.val cc.val rr.isLt cc.isLt]

theorem get_congr (b1 b2 : Board) (h : b1.squares = b2.squares) (r c : Int) :
    b1.get r c = b2.get r c := by
  unfold Board.get
  by_cases hv : is_valid_position r c
  · rw [dif_pos hv, dif_pos hv, h]
  · rw [dif_neg hv, dif_neg hv]

/-- The snapshot `make_move` writes into the move. -/
theorem make_snd_spec (b : Board) (m : Move) :
    (make_move b m).2 = { m with previous_state :=
      { captured_piece := m.previous_state.captured_piece
        captured_color := m.previous_state.captured_color
        white_castle_kingside := b.white_castle_kingside
        white_castle_queenside := b.white_castle_queenside
        black_castle_kingside := b.black_castle_kingside
        black_castle_queenside := b.black_castle_queenside
        en_passant_row := b.en_passant_row
        en_passant_col := b.en_passant_col
        halfmove_clock := b.halfmove_clock } } := rfl

theorem make_current_spec (b : Board) (m : Move) :
    (make_move b m).1.current_player =
      (if (b.get m.from_row m.from_col).color = WHITE then BLACK else WHITE) := rfl

theorem make_fullmove_spec (b : Board) (m : Move) :
    (make_move b m).1.fullmove_number =
      (if b.current_player = BLACK then b.fullmove_number + 1
       else b.fullmove_number) := by
  simp only [make_move, Board.setSq,
    apply_ite (fun bb : Board => bb.fullmove_number), ite_self]

theorem make_ep_row_spec (b : Board) (m : Move) :
    (make_move b m).1.en_passant_row =
      (if (b.get m.from_row m.from_col).piece = PAWN ∧
          (m.to_row - m.from_row).natAbs = 2
       then (m.from_row + m.to_row) / 2 else -1) := by
  simp only [make_move, Board.setSq,
    apply_ite (fun bb : Board => bb.en_passant_row), ite_self]

theorem make_ep_col_spec (b : Board) (m : Move) :
    (make_move b m).1.en_passant_col =
      (if (b.get m.from_row m.from_col).piece = PAWN ∧
          (m.to_row - m.from_row).natAbs = 2
       then m.from_col else -1) := by
  simp only [make_move, Board.setSq,
    apply_ite (fun bb : Board => bb.en_passant_col), ite_self]

/-- Squares written by `make_move`: the optional en-passant removal, the
destination, and the cleared origin (the castling branch never fires for a
generated move, by `MoveOK.king_step`). -/
theorem make_squares_spec (b : Board) (m : Move) (hok : MoveOK b m) :
    (make_move b m).1.squares =
      (((if ((b.get m.from_row m.from_col).piece = PAWN ∧
            m.to_row = b.en_passant_row ∧ m.to_col = b.en_passant_col ∧
            m.previous_state.captured_piece = PAWN ∧
            (b.get m.to_row m.to_col).piece = EMPTY) then
          b.setSq m.from_row m.to_col ⟨EMPTY, NONE⟩ else b).setSq
        m.to_row m.to_col
        ⟨(if ¬m.promotion = EMPTY then m.promotion
          else (b.get m.from_row m.from_col).piece),
          (b.get m.from_row m.from_col).color⟩).setSq
      m.from_row m.from_col ⟨EMPTY, NONE⟩).squares := by
  by_cases hkg : (b.get m.from_row m.from_col).piece = KING
  · have h1 := hok.king_step hkg
    have hna : ¬((m.to_col - m.from_col).natAbs = 2) := by omega
    simp only [make_move, apply_ite (fun bb : Board => bb.squares), ite_self]
    rw [if_pos hkg, if_neg hna]
    split_ifs <;> first | rfl | simp_all
  · simp only [make_move, apply_ite (fun bb : Board => bb.squares), ite_self]
    rw [if_neg hkg]

/-- Squares written by `undo_move`, pointwise, when the move is not a castle:
restore the origin, then either the en-passant double restore or the plain
captured-piece restore at the destination. -/
theorem undo_squares_apply (b2 : Board) (mm : Move)
    (hnc : ¬((if ¬mm.promotion = EMPTY then PAWN
        else (b2.get mm.to_row mm.to_col).piece) = KING ∧
      (mm.to_col - mm.from_col).natAbs = 2)) (rr cc : Fin 8) :
    (undo_move b2 mm).squares rr cc =
      (if ((if ¬mm.promotion = EMPTY then PAWN
            else (b2.get mm.to_row mm.to_col).piece) = PAWN ∧
          mm.to_row = mm.previous_state.en_passant_row ∧
          mm.to_col = mm.previous_state.en_passant_col ∧
          mm.previous_state.captured_piece = PAWN) then
        (if (rr : Int) = mm.from_row ∧ (cc : Int) = mm.to_col then
          ⟨PAWN, mm.previous_state.captured_color⟩
        else if (rr : Int) = mm.to_row ∧ (cc : Int) = mm.to_col then
          (⟨EMPTY, NONE⟩ : Square)
        else if (rr : Int) = mm.from_row ∧ (cc : Int) = mm.from_col then
          ⟨(if ¬mm.promotion = EMPTY then PAWN
            else (b2.get mm.to_row mm.to_col).piece),
            (if b2.current_player = WHITE then BLACK else WHITE)⟩
        else b2.squares rr cc)
      else
        (if (rr : Int) = mm.to_row ∧ (cc : Int) = mm.to_col then
          ⟨mm.previous_state.captured_piece, mm.previous_state.captured_color⟩
        else if (rr : Int) = mm.from_row ∧ (cc : Int) = mm.from_col then
          ⟨(if ¬mm.promotion = EMPTY then PAWN
            else (b2.get mm.to_row mm.to_col).piece),
            (if b2.current_player = WHITE then BLACK else WHITE)⟩
        else b2.squares rr cc)) := by
  simp only [undo_move, apply_ite (fun bb : Board => bb.squares rr cc), ite_self,
    setSq_squares_apply]
  rw [if_neg hnc]

theorem undo_wck_spec (b2 : Board) (mm : Move) :
    (undo_move b2 mm).white_castle_kingside =
      mm.previous_state.white_castle_kingside := by
  simp only [undo_move, apply_ite (fun bb : Board => bb.white_castle_kingside),
    ite_self, setSq_wck]

theorem undo_wcq_spec (b2 : Board) (mm : Move) :
    (undo_move b2 mm).white_castle_queenside =
      mm.previous_state.white_castle_queenside := by
  simp only [undo_move, apply_ite (fun bb : Board => bb.white_castle_queenside),
    ite_self, setSq_wcq]

theorem undo_bck_spec (b2 : Board) (mm : Move) :
    (undo_move b2 mm).black_castle_kingside =
      mm.previous_state.black_castle_kingside := by
  simp only [undo_move, apply_ite (fun bb : Board => bb.black_castle_kingside),
    ite_self, setSq_bck]

theorem undo_bcq_spec (b2 : Board) (mm : Move) :
    (undo_move b2 mm).black_castle_queenside =
      mm.previous_state.black_castle_queenside := by
  simp only [undo_move, apply_ite (fun bb : Board => bb.black_castle_queenside),
    ite_self, setSq_bcq]

theorem undo_epr_spec (b2 : Board) (mm : Move) :
    (undo_move b2 mm).en_passant_row = mm.previous_state.en_passant_row := by
  simp only [undo_move, apply_ite (fun bb : Board => bb.en_passant_row),
    ite_self, setSq_epr]

theorem undo_epc_spec (b2 : Board) (mm : Move) :
    (undo_move b2 mm).en_passant_col = mm.previous_state.en_passant_col := by
  simp only [undo_move, apply_ite (fun bb : Board => bb.en_passant_col),
    ite_self, setSq_epc]

theorem undo_half_spec (b2 : Board) (mm : Move) :
    (undo_move b2 mm).halfmove_clock = mm.previous_state.halfmove_clock := by
  simp only [undo_move, apply_ite (fun bb : Board => bb.halfmove_clock),
    ite_self, setSq_half]

theorem undo_current_spec (b2 : Board) (mm : Move) :
    (undo_move b2 mm).current_player =
      (if b2.current_player = WHITE then BLACK else WHITE) := rfl

theorem undo_fullmove_spec (b2 : Board) (mm : Move) :
    (undo_move b2 mm).fullmove_number =
      (if b2.current_player = WHITE then b2.fullmove_number - 1
       else b2.fullmove_number) := by
  simp only [undo_move, apply_ite (fun bb : Board => bb.fullmove_number),
    apply_ite (fun bb : Board => bb.current_player), ite_self, setSq_full,
    setSq_cur]

theorem squaresInv_get (b : Board) (hsq : squaresInv b) (r c : Int)
    (hv : is_valid_position r c) (he : (b.get r c).piece = EMPTY) :
    (b.get r c).color = NONE := by
  obtain ⟨h1, h2, h3, h4⟩ := hv
  have hg : b.get r c = b.squares ⟨r.toNat, by omega⟩ ⟨c.toNat, by omega⟩ := by
    unfold Board.get
    rw [dif_pos ⟨h1, h2, h3, h4⟩]
  rw [hg] at he ⊢
  exact hsq _ _ he

theorem make_undo_exact (b : Board) (m : Move)
    (hsq : squaresInv b) (hep : epInv b)
    (hcp : b.current_player = WHITE ∨ b.current_player = BLACK)
    (hok : MoveOK b m) :
    undo_move (make_move b m).1 (make_move b m).2 = b := by
  have hfv := hok.from_valid
  have htv := hok.to_valid
  have hown := hok.owned
  have hget_ne : b.get m.from_row m.from_col ≠ b.get m.to_row m.to_col := by
    rcases hok.tgt with h | h
    · intro he
      have hocc := hok.occupied
      rw [he] at hocc
      exact hocc h
    · intro he
      have hown2 := hok.owned
      rw [he] at hown2
      exact h hown2
  have hne : ¬(m.to_row = m.from_row ∧ m.to_col = m.from_col) := by
    rintro ⟨h1, h2⟩
    rw [h1, h2] at hget_ne
    exact hget_ne rfl
  have hsqs := make_squares_spec b m hok
  have hgetto : (make_move b m).1.get m.to_row m.to_col =
      ⟨(if ¬m.promotion = EMPTY then m.promotion
        else (b.get m.from_row m.from_col).piece),
        (b.get m.from_row m.from_col).color⟩ := by
    rw [get_congr _ _ hsqs]
    rw [get_setSq_ne _ _ _ _ _ _ hne]
    rw [get_setSq_same _ _ _ _ htv]
  have horig : (if ¬m.promotion = EMPTY then PAWN
      else ((make_move b m).1.get m.to_row m.to_col).piece) =
      (b.get m.from_row m.from_col).piece := by
    by_cases hpr : m.promotion = EMPTY
    · rw [hgetto]
      simp [hpr]
    · rw [if_pos hpr]
      exact (hok.promo_pawn hpr).symm
  have hcastleF : ¬((if ¬m.promotion = EMPTY then PAWN
      else ((make_move b m).1.get m.to_row m.to_col).piece) = KING ∧
      (m.to_col - m.from_col).natAbs = 2) := by
    rintro ⟨hK, hA⟩
    rw [horig] at hK
    have := hok.king_step hK
    omega
  have hprevp : (if (make_move b m).1.current_player = WHITE then BLACK else WHITE) =
      b.current_player := by
    rw [make_current_spec, hown]
    rcases hcp with h | h <;> rw [h] <;> simp
  refine Board.ext ?_ ?_ ?_ ?_ ?_ ?_ ?_ ?_ ?_ ?_
  · -- squares
    funext rr cc
    rw [undo_squares_apply (make_move b m).1 (make_move b m).2 hcastleF rr cc]
    simp only [make_snd_spec]
    rw [horig, hprevp, hsqs]
    simp only [setSq_squares_apply,
      apply_ite (fun bb : Board => bb.squares rr cc)]
    rcases hok.cap with hEP | hcap
    · obtain ⟨hPp, hTR, hTC, hDIR, hOFF, hTE, hCP, hCC, hPR⟩ := hEP
      have hepu : (b.get m.from_row m.from_col).piece = PAWN ∧
          m.to_row = b.en_passant_row ∧ m.to_col = b.en_passant_col ∧
          m.previous_state.captured_piece = PAWN := ⟨hPp, hTR, hTC, hCP⟩
      have hmk : (b.get m.from_row m.from_col).piece = PAWN ∧
          m.to_row = b.en_passant_row ∧ m.to_col = b.en_passant_col ∧
          m.previous_state.captured_piece = PAWN ∧
          (b.get m.to_row m.to_col).piece = EMPTY := ⟨hPp, hTR, hTC, hCP, hTE⟩
      rw [if_pos hepu, if_pos hmk]
      rcases hep with ⟨h1, _⟩ | hW | hB
      · exfalso
        obtain ⟨ht1, ht2, ht3, ht4⟩ := htv
        omega
      · obtain ⟨hcur, hr2, _, _, hemp, hbeh⟩ := hW
        have hdirW : pawn_dir_of b.current_player = -1 := by
          rw [hcur]; rfl
        rw [hdirW] at hDIR
        have hfr3 : m.from_row = 3 := by omega
        have hto2 : m.to_row = 2 := by omega
        have hCCB : m.previous_state.captured_color = BLACK := by
          rw [hCC, hcur]; rfl
        by_cases hc1 : (rr : Int) = m.from_row ∧ (cc : Int) = m.to_col
        · rw [if_pos hc1, squares_eq_get, hc1.1, hc1.2, hfr3, hTC, hbeh, hCCB]
        · rw [if_neg hc1]
          by_cases hc2 : (rr : Int) = m.to_row ∧ (cc : Int) = m.to_col
          · rw [if_pos hc2, squares_eq_get, hc2.1, hc2.2, hto2, hTC, hemp]
          · rw [if_neg hc2]
            by_cases hc3 : (rr : Int) = m.from_row ∧ (cc : Int) = m.from_col
            · rw [if_pos hc3, squares_eq_get, hc3.1, hc3.2, ← hown]
            · rw [if_neg hc3, if_neg hc3, if_neg hc2, if_neg hc1]
      · obtain ⟨hcur, hr5, _, _, hemp, hbeh⟩ := hB
        have hdirB : pawn_dir_of b.current_player = 1 := by
          rw [hcur]; rfl
        rw [hdirB] at hDIR
        have hfr4 : m.from_row = 4 := by omega
        have hto5 : m.to_row = 5 := by omega
        have hCCW : m.previous_state.captured_color = WHITE := by
          rw [hCC, hcur]; rfl
        by_cases hc1 : (rr : Int) = m.from_row ∧ (cc : Int) = m.to_col
        · rw [if_pos hc1, squares_eq_get, hc1.1, hc1.2, hfr4, hTC, hbeh, hCCW]
        · rw [if_neg hc1]
          by_cases hc2 : (rr : Int) = m.to_row ∧ (cc : Int) = m.to_col
          · rw [if_pos hc2, squares_eq_get, hc2.1, hc2.2, hto5, hTC, hemp]
          · rw [if_neg hc2]
            by_cases hc3 : (rr : Int) = m.from_row ∧ (cc : Int) = m.from_col
            · rw [if_pos hc3, squares_eq_get, hc3.1, hc3.2, ← hown]
            · rw [if_neg hc3, if_neg hc3, if_neg hc2, if_neg hc1]
    · have hcapP_pawn : m.previous_state.captured_piece = PAWN →
          (b.get m.to_row m.to_col).piece = PAWN := by
        intro h4
        rcases hcap with hcs | hcs
        · rw [← hcs]
          exact h4
        · exact absurd (hcs.1.symm.trans h4) (by simp)
      have hepuF : ¬((b.get m.from_row m.from_col).piece = PAWN ∧
          m.to_row = b.en_passant_row ∧ m.to_col = b.en_passant_col ∧
          m.previous_state.captured_piece = PAWN) := by
        rintro ⟨h1, h2, h3, h4⟩
        have h5 := hcapP_pawn h4
        rcases hep with ⟨he1, _⟩ | ⟨_, he2, _, _, hemp, _⟩ | ⟨_, he2, _, _, hemp, _⟩
        · obtain ⟨ht1, ht2, ht3, ht4⟩ := htv
          omega
        · rw [h2, he2, h3] at h5
          rw [hemp] at h5
          cases h5
        · rw [h2, he2, h3] at h5
          rw [hemp] at h5
          cases h5
      have hmkF : ¬((b.get m.from_row m.from_col).piece = PAWN ∧
          m.to_row = b.en_passant_row ∧ m.to_col = b.en_passant_col ∧
          m.previous_state.captured_piece = PAWN ∧
          (b.get m.to_row m.to_col).piece = EMPTY) := by
        rintro ⟨h1, h2, h3, h4, h5⟩
        rw [hcapP_pawn h4] at h5
        cases h5
      rw [if_neg hepuF, if_neg hmkF]
      by_cases hc2 : (rr : Int) = m.to_row ∧ (cc : Int) = m.to_col
      · rw [if_pos hc2, squares_eq_get, hc2.1, hc2.2]
        rcases hcap with hcs | hcs
        · exact hcs
        · obtain ⟨he1, he2, he3⟩ := hcs
          have hcolN := squaresInv_get b hsq m.to_row m.to_col htv he3
          rw [he1, he2]
          rcases hq : b.get m.to_row m.to_col with ⟨p0, c0⟩
          rw [hq] at he3 hcolN
          dsimp only at he3 hcolN
          rw [he3, hcolN]
      · rw [if_neg hc2]
        by_cases hc3 : (rr : Int) = m.from_row ∧ (cc : Int) = m.from_col
        · rw [if_pos hc3, squares_eq_get, hc3.1, hc3.2, ← hown]
        · rw [if_neg hc3, if_neg hc3, if_neg hc2]
  · rw [undo_current_spec]
    exact hprevp
  · rw [undo_wck_spec, make_snd_spec]
  · rw [undo_wcq_spec, make_snd_spec]
  · rw [undo_bck_spec, make_snd_spec]
  · rw [undo_bcq_spec, make_snd_spec]
  · rw [undo_epr_spec, make_snd_spec]
  · rw [undo_epc_spec, make_snd_spec]
  · rw [undo_half_spec, make_snd_spec]
  · rw [undo_fullmove_spec, make_current_spec, make_fullmove_spec, hown]
    rcases hcp with h | h <;> rw [h] <;> simp

/-- Moves kept by the filtering loop are the generator's moves with only the
snapshot part of `previous_state` rewritten by `make_move`. -/
theorem legal_filter_loop_mem (cp : PlayerColor) :
    ∀ (ms : List Move) (tb : Board) (x : Move), x ∈ legal_filter_loop cp ms tb →
      ∃ m ∈ ms, x.from_row = m.from_row ∧ x.from_col = m.from_col ∧
        x.to_row = m.to_row ∧ x.to_col = m.to_col ∧ x.promotion = m.promotion ∧
        x.previous_state.captured_piece = m.previous_state.captured_piece ∧
        x.previous_state.captured_color = m.previous_state.captured_color := by
  intro ms
  induction ms with
  | nil =>
    intro tb x hx
    simp [legal_filter_loop] at hx
  | cons m rest ih =>
    intro tb x hx
    unfold legal_filter_loop at hx
    dsimp only at hx
    split at hx
    case isTrue =>
      rw [List.mem_cons] at hx
      rcases hx with rfl | hx
      · refine ⟨m, List.mem_cons_self m rest, ?_⟩
        rw [make_snd_spec]
        exact ⟨rfl, rfl, rfl, rfl, rfl, rfl, rfl⟩
      · obtain ⟨m2, hm2, hrest⟩ := ih _ x hx
        exact ⟨m2, List.mem_cons_of_mem _ hm2, hrest⟩
    case isFalse =>
      obtain ⟨m2, hm2, hrest⟩ := ih _ x hx
      exact ⟨m2, List.mem_cons_of_mem _ hm2, hrest⟩

/-- On a board satisfying the reachable-position invariants, the filtering
loop is a pure filter: the working copy is exactly restored before every
iteration. -/
theorem legal_filter_loop_exact (b : Board) (hsq : squaresInv b) (hep : epInv b)
    (hcp : b.current_player = WHITE ∨ b.current_player = BLACK) :
    ∀ ms : List Move, (∀ m ∈ ms, MoveOK b m) →
      legal_filter_loop b.current_player ms b =
        (ms.filter
          (fun m => ! is_king_in_check (make_move b m).1 b.current_player)).map
          (fun m => (make_move b m).2) := by
  intro ms
  induction ms with
  | nil =>
    intro _
    simp [legal_filter_loop]
  | cons m rest ih =>
    intro hall
    unfold legal_filter_loop
    dsimp only
    rw [make_undo_exact b m hsq hep hcp (hall m (List.mem_cons_self m rest))]
    rw [List.filter_cons]
    by_cases hk : is_king_in_check (make_move b m).1 b.current_player
    · rw [if_neg (by simp [hk]), if_neg (by simp [hk])]
      exact ih (fun m2 hm2 => hall m2 (List.mem_cons_of_mem _ hm2))
    · rw [if_pos (by simp [hk]), if_pos (by simp [hk])]
      rw [List.map_cons]
      rw [ih (fun m2 hm2 => hall m2 (List.mem_cons_of_mem _ hm2))]

/-- `generate_legal_moves` on an invariant-satisfying board is exactly the
king-safety filter over the pseudo-legal moves. -/
theorem generate_legal_moves_eq_filter (b : Board) (hsq : squaresInv b)
    (hep : epInv b)
    (hcp : b.current_player = WHITE ∨ b.current_player = BLACK) :
    generate_legal_moves b =
      ((generate_pseudo_legal_moves b).filter
        (fun m => ! is_king_in_check (make_move b m).1 b.current_player)).map
        (fun m => (make_move b m).2) := by
  unfold generate_legal_moves
  exact legal_filter_loop_exact b hsq hep hcp _ (fun m hm => pseudo_mem_ok b m hm)

/-- No move produced by the 2D legal-move generator moves a king by two
columns: 2D `generate_king_moves` contains no castling generation. -/
theorem legal_no_castle (b : Board) (m : Move)
    (hm : m ∈ generate_legal_moves b)
    (hking : (b.get m.from_row m.from_col).piece = KING) :
    (m.to_col - m.from_col).natAbs ≠ 2 := by
  unfold generate_legal_moves at hm
  obtain ⟨m0, hm0, h1, h2, h3, h4, _⟩ := legal_filter_loop_mem _ _ _ _ hm
  have hok := pseudo_mem_ok b m0 hm0
  rw [h1, h2] at hking
  have hstep := hok.king_step hking
  rw [h4, h2]
  omega

/-- En-passant target after `make_move`, for a generated move: set to the
skipped square exactly on a straight two-square pawn advance, else cleared. -/
theorem make_ep_of_pseudo (b : Board) (m : Move)
    (hm : m ∈ generate_pseudo_legal_moves b) :
    if (b.get m.from_row m.from_col).piece = PAWN ∧
        (m.to_row - m.from_row).natAbs = 2 then
      (make_move b m).1.en_passant_row = (m.from_row + m.to_row) / 2 ∧
      (make_move b m).1.en_passant_col = m.from_col ∧
      m.to_col = m.from_col ∧
      m.to_row = m.from_row + 2 * pawn_dir_of b.current_player
    else
      (make_move b m).1.en_passant_row = -1 ∧
      (make_move b m).1.en_passant_col = -1 := by
  have hok := pseudo_mem_ok b m hm
  by_cases h : (b.get m.from_row m.from_col).piece = PAWN ∧
      (m.to_row - m.from_row).natAbs = 2
  · rw [if_pos h]
    obtain ⟨hcol, _, hrow⟩ := hok.pawn_double h.1 h.2
    refine ⟨?_, ?_, hcol, hrow⟩
    · rw [make_ep_row_spec, if_pos h]
    · rw [make_ep_col_spec, if_pos h]
  · rw [if_neg h]
    constructor
    · rw [make_ep_row_spec, if_neg h]
    · rw [make_ep_col_spec, if_neg h]

/-- The 2D king generator never moves a king more than one column: it has no
castling branch. -/
theorem king2_gen_no_castle (b : Board) (r c : Int) (m : Move)
    (hm : m ∈ generate_king_moves b r c) :
    (m.to_col - m.from_col).natAbs ≤ 1 := by
  unfold generate_king_moves at hm
  simp only [List.mem_flatMap] at hm
  obtain ⟨d, hd, hm⟩ := hm
  split at hm
  case isFalse => simp at hm
  case isTrue =>
    rw [List.mem_singleton] at hm
    subst hm
    have hsmall : d.2 = -1 ∨ d.2 = 0 ∨ d.2 = 1 := by
      have : ∀ x ∈ king_offsets, x.2 = -1 ∨ x.2 = 0 ∨ x.2 = 1 := by decide
      exact this d hd
    dsimp only [mkMove]
    rcases hsmall with h | h | h <;> rw [h] <;> omega

/-- If the queried side has no king anywhere on a 2D board, `find_king`
reports failure and `is_king_in_check` reports "not in check". -/
theorem find_king2_none (b : Board) (q : PlayerColor)
    (h : ∀ (r c : Fin 8),
      ¬((b.squares r c).piece = KING ∧ (b.squares r c).color = q)) :
    find_king b q = none ∧ is_king_in_check b q = false := by
  have hfk : find_king b q = none := by
    unfold find_king
    rw [List.find?_eq_none]
    intro p hp
    unfold board_coords at hp
    rw [List.mem_flatMap] at hp
    obtain ⟨r, hr, hp⟩ := hp
    rw [List.mem_map] at hp
    obtain ⟨c1, hc1, hp⟩ := hp
    simp at hc1
    obtain ⟨c, hc, rfl⟩ := hc1
    rw [List.mem_range] at hr
    subst hp
    simp only [decide_eq_true_eq]
    intro hk
    have hg : b.get (r : Int) (c : Int) = b.squares ⟨r, by omega⟩ ⟨c, by omega⟩ := by
      unfold Board.get
      rw [dif_pos (by unfold is_valid_position; omega)]
      congr 1
    rw [hg] at hk
    exact h ⟨r, by omega⟩ ⟨c, by omega⟩ hk
  refine ⟨hfk, ?_⟩
  unfold is_king_in_check
  rw [hfk]

/-- The 2D `is_game_over` flag, as a disjunction of its three conditions. -/
theorem is_game_over2_iff (b : Board) :
    (is_game_over b).1 = true ↔
      ((generate_legal_moves b).length = 0 ∨ b.halfmove_clock ≥ 100 ∨
        (find_king b WHITE).isNone = true ∨ (find_king b BLACK).isNone = true) := by
  unfold is_game_over
  dsimp only
  split_ifs with h1 h2 h3 h4 <;> simp_all

/-- On a position with zero legal moves, the 2D `minimax` returns the mate
score signed by the side to move (not by the maximizing flag), or 0 when the
side to move is not in check. -/
theorem minimax2_zero_legal (b : Board) (d : Nat) (alpha beta : Int)
    (mx : Bool) (h0 : (generate_legal_moves b).length = 0) :
    minimax b d alpha beta mx =
      if is_king_in_check b b.current_player then
        (if b.current_player = WHITE then -MATE_SCORE - (d : Int)
        else MATE_SCORE + (d : Int))
      else 0 := by
  unfold minimax is_game_over
  dsimp only
  rw [if_pos h0]
  by_cases hchk : is_king_in_check b b.current_player
  · rw [if_pos hchk, if_pos hchk]
    rw [if_pos rfl]
  · rw [if_neg hchk, if_neg hchk]
    rw [if_pos rfl]

end Chess2D

namespace Chess3D

theorem setSq3_scalars (b : Board) (l row col : Int) (sq : Square) :
    (b.setSq l row col sq).current_player = b.current_player ∧
    (b.setSq l row col sq).en_passant_layer = b.en_passant_layer ∧
    (b.setSq l row col sq).en_passant_row = b.en_passant_row ∧
    (b.setSq l row col sq).en_passant_col = b.en_passant_col ∧
    (b.setSq l row col sq).halfmove_clock = b.halfmove_clock := by
  exact ⟨rfl, rfl, rfl, rfl, rfl⟩

/-- The en-passant layer after the 3D `make_move`. -/
theorem make3_ep_layer_spec (b : Board) (m : Move) :
    (make_move b m).en_passant_layer =
      if (b.get m.from_layer m.from_row m.from_col).piece = PAWN ∧
          (m.to_row - m.from_row).natAbs = 2 ∧ m.from_layer = m.to_layer then
        m.from_layer
      else -1 := by
  simp only [make_move, Board.setSq,
    apply_ite (fun bb : Board => bb.en_passant_layer), ite_self]

/-- The en-passant row after the 3D `make_move`. -/
theorem make3_ep_row_spec (b : Board) (m : Move) :
    (make_move b m).en_passant_row =
      if (b.get m.from_layer m.from_row m.from_col).piece = PAWN ∧
          (m.to_row - m.from_row).natAbs = 2 ∧ m.from_layer = m.to_layer then
        (m.from_row + m.to_row) / 2
      else -1 := by
  simp only [make_move, Board.setSq,
    apply_ite (fun bb : Board => bb.en_passant_row), ite_self]

/-- The en-passant column after the 3D `make_move`. -/
theorem make3_ep_col_spec (b : Board) (m : Move) :
    (make_move b m).en_passant_col =
      if (b.get m.from_layer m.from_row m.from_col).piece = PAWN ∧
          (m.to_row - m.from_row).natAbs = 2 ∧ m.from_layer = m.to_layer then
        m.from_col
      else -1 := by
  simp only [make_move, Board.setSq,
    apply_ite (fun bb : Board => bb.en_passant_col), ite_self]

/-- Every move emitted by the 3D pawn generator starts at the scanned square,
and only the same-layer straight double push moves two rows. -/
theorem pawn3_shape (b : Board) (l r c : Int) (m : Move)
    (hm : m ∈ generate_pawn_moves b l r c) :
    m.from_layer = l ∧ m.from_row = r ∧ m.from_col = c ∧
      ((m.to_row - m.from_row).natAbs = 2 → m.to_layer = l ∧ m.to_col = c) := by
  unfold generate_pawn_moves at hm
  have hd : (if (b.get l r c).color = WHITE then (-1 : Int) else 1) = -1 ∨
      (if (b.get l r c).color = WHITE then (-1 : Int) else 1) = 1 := by
    split <;> simp
  simp only [List.mem_append] at hm
  generalize hdg : (if (b.get l r c).color = WHITE then (-1 : Int) else 1) = dir
    at hm hd
  generalize (if (b.get l r c).color = WHITE then (6 : Int) else 1) = srow at hm
  generalize (if (b.get l r c).color = WHITE then (0 : Int) else 7) = prow at hm
  rcases hm with (hm | hm) | hm
  · split at hm
    case isFalse => simp at hm
    case isTrue h =>
      rw [List.mem_append] at hm
      rcases hm with hm | hm
      · split at hm
        · rw [List.mem_map] at hm
          obtain ⟨p, _, hm⟩ := hm
          subst hm
          exact ⟨rfl, rfl, rfl, fun h2 => by
            dsimp only [mk3] at h2
            rcases hd with h1 | h1 <;> subst h1 <;> omega⟩
        · rw [List.mem_singleton] at hm
          subst hm
          exact ⟨rfl, rfl, rfl, fun h2 => by
            dsimp only [mk3] at h2
            rcases hd with h1 | h1 <;> subst h1 <;> omega⟩
      · split at hm
        case isFalse => simp at hm
        case isTrue h3 =>
          rw [List.mem_singleton] at hm
          subst hm
          exact ⟨rfl, rfl, rfl, fun _ => ⟨rfl, rfl⟩⟩
  · rw [List.mem_flatMap] at hm
    obtain ⟨off, hoff, hm⟩ := hm
    split at hm
    case isFalse => simp at hm
    case isTrue h =>
      split at hm
      · split at hm
        · rw [List.mem_map] at hm
          obtain ⟨p, _, hm⟩ := hm
          subst hm
          exact ⟨rfl, rfl, rfl, fun h2 => by
            dsimp only [mk3] at h2
            rcases hd with h1 | h1 <;> subst h1 <;> omega⟩
        · rw [List.mem_singleton] at hm
          subst hm
          exact ⟨rfl, rfl, rfl, fun h2 => by
            dsimp only [mk3] at h2
            rcases hd with h1 | h1 <;> subst h1 <;> omega⟩
      · split at hm
        · rw [List.mem_singleton] at hm
          subst hm
          exact ⟨rfl, rfl, rfl, fun h2 => by
            dsimp only [mk3] at h2
            rcases hd with h1 | h1 <;> subst h1 <;> omega⟩
        · simp at hm
  · rw [List.mem_flatMap] at hm
    obtain ⟨lch, hlch, hm⟩ := hm
    split at hm
    case isFalse => simp at hm
    case isTrue h =>
      rw [List.mem_append] at hm
      rcases hm with hm | hm
      · split at hm
        case isFalse => simp at hm
        case isTrue h3 =>
          rw [List.mem_singleton] at hm
          subst hm
          exact ⟨rfl, rfl, rfl, fun h2 => by
            dsimp only [mk3] at h2
            rcases hd with h1 | h1 <;> subst h1 <;> omega⟩
      · rw [List.mem_flatMap] at hm
        obtain ⟨off, hoff, hm⟩ := hm
        split at hm
        case isFalse => simp at hm
        case isTrue h3 =>
          rw [List.mem_singleton] at hm
          subst hm
          exact ⟨rfl, rfl, rfl, fun h2 => by
            dsimp only [mk3] at h2
            rcases hd with h1 | h1 <;> subst h1 <;> omega⟩

/-- Every move emitted by the 3D knight generator starts at the scanned
square. -/
theorem knight3_from (b : Board) (l r c : Int) (m : Move)
    (hm : m ∈ generate_knight_moves b l r c) :
    m.from_layer = l ∧ m.from_row = r ∧ m.from_col = c := by
  unfold generate_knight_moves at hm
  simp only [List.mem_flatMap] at hm
  obtain ⟨lo, _, hm⟩ := hm
  split at hm
  case isFalse => simp at hm
  case isTrue =>
    rw [List.mem_flatMap] at hm
    obtain ⟨d, _, hm⟩ := hm
    split at hm
    case isFalse => simp at hm
    case isTrue =>
      rw [List.mem_singleton] at hm
      subst hm
      exact ⟨rfl, rfl, rfl⟩

/-- Every move emitted by the 3D sliding-ray loop starts at the scanned
square. -/
theorem directional_aux3_from (b : Board) (l r c : Int) (cc : PlayerColor)
    (rd cd ld : Int) :
    ∀ (fuel : Nat) (nl nr nc : Int) (m : Move),
      m ∈ directional_aux b l r c cc rd cd ld fuel nl nr nc →
      m.from_layer = l ∧ m.from_row = r ∧ m.from_col = c := by
  intro fuel
  induction fuel with
  | zero => intro nl nr nc m hm; simp [directional_aux] at hm
  | succ n ih =>
    intro nl nr nc m hm
    unfold directional_aux at hm
    split at hm
    case isFalse => simp at hm
    case isTrue =>
      split at hm
      · rw [List.mem_cons] at hm
        rcases hm with hm | hm
        · subst hm; exact ⟨rfl, rfl, rfl⟩
        · exact ih _ _ _ _ hm
      · split at hm
        · rw [List.mem_singleton] at hm
          subst hm
          exact ⟨rfl, rfl, rfl⟩
        · simp at hm

/-- Every move emitted by the 3D bishop generator starts at the scanned
square. -/
theorem bishop3_from (b : Board) (l r c : Int) (m : Move)
    (hm : m ∈ generate_bishop_moves b l r c) :
    m.from_layer = l ∧ m.from_row = r ∧ m.from_col = c := by
  unfold generate_bishop_moves at hm
  rw [List.mem_append] at hm
  rcases hm with hm | hm
  · rw [List.mem_flatMap] at hm
    obtain ⟨d, _, hm⟩ := hm
    exact directional_aux3_from b l r c _ _ _ _ _ _ _ _ _ hm
  · rw [List.mem_flatMap] at hm
    obtain ⟨lch, _, hm⟩ := hm
    rw [List.mem_flatMap] at hm
    obtain ⟨d, _, hm⟩ := hm
    exact directional_aux3_from b l r c _ _ _ _ _ _ _ _ _ hm

/-- Every move emitted by the 3D rook generator starts at the scanned
square. -/
theorem rook3_from (b : Board) (l r c : Int) (m : Move)
    (hm : m ∈ generate_rook_moves b l r c) :
    m.from_layer = l ∧ m.from_row = r ∧ m.from_col = c := by
  unfold generate_rook_moves at hm
  rw [List.mem_append] at hm
  rcases hm with hm | hm
  · rw [List.mem_flatMap] at hm
    obtain ⟨d, _, hm⟩ := hm
    exact directional_aux3_from b l r c _ _ _ _ _ _ _ _ _ hm
  · rw [List.mem_flatMap] at hm
    obtain ⟨lch, _, hm⟩ := hm
    simp only [List.mem_append] at hm
    rcases hm with (((hm | hm) | hm) | hm) | hm <;>
      exact directional_aux3_from b l r c _ _ _ _ _ _ _ _ _ hm

/-- Every move emitted by the 3D queen generator starts at the scanned
square. -/
theorem queen3_from (b : Board) (l r c : Int) (m : Move)
    (hm : m ∈ generate_queen_moves b l r c) :
    m.from_layer = l ∧ m.from_row = r ∧ m.from_col = c := by
  unfold generate_queen_moves at hm
  rw [List.mem_append] at hm
  rcases hm with hm | hm
  · exact bishop3_from b l r c m hm
  · exact rook3_from b l r c m hm

/-- Every move emitted by the 3D king generator starts at the scanned
square. -/
theorem king3_from (b : Board) (l r c : Int) (m : Move)
    (hm : m ∈ generate_king_moves b l r c) :
    m.from_layer = l ∧ m.from_row = r ∧ m.from_col = c := by
  unfold generate_king_moves at hm
  simp only [List.mem_append] at hm
  rcases hm with hm | hm
  · rw [List.mem_flatMap] at hm
    obtain ⟨d, _, hm⟩ := hm
    split at hm
    case isFalse => simp at hm
    case isTrue =>
      rw [List.mem_singleton] at hm
      subst hm
      exact ⟨rfl, rfl, rfl⟩
  · simp at hm
    rcases hm with ⟨h0, ⟨hr, hc⟩, hchk, ⟨hg, rfl⟩ | ⟨hg, rfl⟩⟩ <;>
      exact ⟨rfl, rfl, rfl⟩

/-- Every move emitted by the 3D per-piece dispatcher starts at the scanned
square. -/
theorem moves_for_piece3_from (b : Board) (l r c : Int) (m : Move)
    (hm : m ∈ generate_moves_for_piece b l r c) :
    m.from_layer = l ∧ m.from_row = r ∧ m.from_col = c := by
  unfold generate_moves_for_piece at hm
  cases hp : (b.get l r c).piece <;> rw [hp] at hm
  case EMPTY => simp at hm
  case PAWN =>
    obtain ⟨h1, h2, h3, _⟩ := pawn3_shape b l r c m hm
    exact ⟨h1, h2, h3⟩
  case KNIGHT => exact knight3_from b l r c m hm
  case BISHOP => exact bishop3_from b l r c m hm
  case ROOK => exact rook3_from b l r c m hm
  case QUEEN => exact queen3_from b l r c m hm
  case KING => exact king3_from b l r c m hm

/-- A 3D pseudo-legal move comes from scanning a valid square owned by the
current player, and its from-fields name that square. -/
theorem pseudo3_shape (b : Board) (m : Move)
    (hm : m ∈ generate_pseudo_legal_moves b) :
    is_valid_position m.from_layer m.from_row m.from_col ∧
      (b.get m.from_layer m.from_row m.from_col).color = b.current_player ∧
      m ∈ generate_moves_for_piece b m.from_layer m.from_row m.from_col := by
  unfold generate_pseudo_legal_moves at hm
  simp only [List.mem_flatMap, List.mem_range] at hm
  obtain ⟨l, hl, r, hr, c, hc, hm⟩ := hm
  split at hm
  case isFalse => simp at hm
  case isTrue hcol =>
    obtain ⟨h1, h2, h3⟩ := moves_for_piece3_from b (l : Int) (r : Int) (c : Int) m hm
    rw [h1, h2, h3]
    refine ⟨?_, hcol, hm⟩
    unfold is_valid_position
    omega

/-- En-passant target after the 3D `make_move` on a generated move: set to
the skipped square (same layer, same column, intermediate row) exactly on a
two-square pawn advance, else cleared. -/
theorem make3_ep_of_pseudo (b : Board) (m : Move)
    (hm : m ∈ generate_pseudo_legal_moves b) :
    if (b.get m.from_layer m.from_row m.from_col).piece = PAWN ∧
        (m.to_row - m.from_row).natAbs = 2 then
      (make_move b m).en_passant_layer = m.from_layer ∧
      (make_move b m).en_passant_row = (m.from_row + m.to_row) / 2 ∧
      (make_move b m).en_passant_col = m.from_col ∧
      m.to_layer = m.from_layer ∧ m.to_col = m.from_col
    else
      (make_move b m).en_passant_layer = -1 ∧
      (make_move b m).en_passant_row = -1 ∧
      (make_move b m).en_passant_col = -1 := by
  obtain ⟨hv, hcol, hmem⟩ := pseudo3_shape b m hm
  by_cases h : (b.get m.from_layer m.from_row m.from_col).piece = PAWN ∧
      (m.to_row - m.from_row).natAbs = 2
  · rw [if_pos h]
    unfold generate_moves_for_piece at hmem
    rw [h.1] at hmem
    obtain ⟨hfl, hfr, hfc, himp⟩ :=
      pawn3_shape b m.from_layer m.from_row m.from_col m hmem
    obtain ⟨htl, htc⟩ := himp h.2
    refine ⟨?_, ?_, ?_, htl.symm ▸ rfl, htc.symm ▸ rfl⟩
    · rw [make3_ep_layer_spec, if_pos ⟨h.1, h.2, htl.symm⟩]
    · rw [make3_ep_row_spec, if_pos ⟨h.1, h.2, htl.symm⟩]
    · rw [make3_ep_col_spec, if_pos ⟨h.1, h.2, htl.symm⟩]
  · rw [if_neg h]
    have hng : ¬((b.get m.from_layer m.from_row m.from_col).piece = PAWN ∧
        (m.to_row - m.from_row).natAbs = 2 ∧ m.from_layer = m.to_layer) := by
      intro hx
      exact h ⟨hx.1, hx.2.1⟩
    refine ⟨?_, ?_, ?_⟩
    · rw [make3_ep_layer_spec, if_neg hng]
    · rw [make3_ep_row_spec, if_neg hng]
    · rw [make3_ep_col_spec, if_neg hng]

/-- A two-column king move can only come from the castling branch of the 3D
king generator, so every guard of that branch held when it was emitted. -/
theorem king3_castle_guard (b : Board) (l r c : Int) (m : Move)
    (hm : m ∈ generate_king_moves b l r c)
    (h2 : (m.to_col - m.from_col).natAbs = 2) :
    l = 0 ∧ c = 4 ∧
    r = (if (b.get l r c).color = WHITE then (7 : Int) else 0) ∧
    m.to_layer = l ∧ m.to_row = r ∧
    is_king_in_check b (b.get l r c).color = false ∧
    ((m.to_col = 6 ∧
        (if (b.get l r c).color = WHITE then b.white_castle_kingside
          else b.black_castle_kingside) = true ∧
        (b.get 0 r 5).piece = EMPTY ∧ (b.get 0 r 6).piece = EMPTY ∧
        is_square_attacked b 0 r 5
          (if (b.get l r c).color = WHITE then BLACK else WHITE) = false ∧
        is_square_attacked b 0 r 6
          (if (b.get l r c).color = WHITE then BLACK else WHITE) = false) ∨
      (m.to_col = 2 ∧
        (if (b.get l r c).color = WHITE then b.white_castle_queenside
          else b.black_castle_queenside) = true ∧
        (b.get 0 r 3).piece = EMPTY ∧ (b.get 0 r 2).piece = EMPTY ∧
        (b.get 0 r 1).piece = EMPTY ∧
        is_square_attacked b 0 r 3
          (if (b.get l r c).color = WHITE then BLACK else WHITE) = false ∧
        is_square_attacked b 0 r 2
          (if (b.get l r c).color = WHITE then BLACK else WHITE) = false)) := by
  unfold generate_king_moves at hm
  simp only [List.mem_append] at hm
  rcases hm with hm | hm
  · exfalso
    rw [List.mem_flatMap] at hm
    obtain ⟨d, hd, hm⟩ := hm
    split at hm
    case isFalse => simp at hm
    case isTrue =>
      rw [List.mem_singleton] at hm
      subst hm
      have hsmall : d.2.2 = -1 ∨ d.2.2 = 0 ∨ d.2.2 = 1 := by
        have : ∀ x ∈ king_offsets, x.2.2 = -1 ∨ x.2.2 = 0 ∨ x.2.2 = 1 := by decide
        exact this d hd
      dsimp only [mk3] at h2
      rcases hsmall with h | h | h <;> rw [h] at h2 <;> omega
  · simp at hm
    rcases hm with ⟨h0, ⟨hr, hc⟩, hchk, ⟨⟨hg1, hg2, hg3, hg4, hg5⟩, rfl⟩ |
      ⟨⟨hg1, hg2, hg3, hg4, hg5, hg6⟩, rfl⟩⟩
    · subst h0 hc
      have hflag : (if (b.get 0 r 4).color = WHITE then b.white_castle_kingside
          else b.black_castle_kingside) = true := by
        by_cases hw : (b.get 0 r 4).color = WHITE
        · rw [if_pos hw]; rw [if_pos hw] at hg1; exact hg1
        · rw [if_neg hw]; rw [if_neg hw] at hg1; exact hg1
      rw [← hr] at hg2 hg3 hg4 hg5
      exact ⟨rfl, rfl, hr, rfl, hr.symm, hchk,
        Or.inl ⟨rfl, hflag, hg2, hg3, hg4, hg5⟩⟩
    · subst h0 hc
      have hflag : (if (b.get 0 r 4).color = WHITE then b.white_castle_queenside
          else b.black_castle_queenside) = true := by
        by_cases hw : (b.get 0 r 4).color = WHITE
        · rw [if_pos hw]; rw [if_pos hw] at hg1; exact hg1
        · rw [if_neg hw]; rw [if_neg hw] at hg1; exact hg1
      rw [← hr] at hg2 hg3 hg4 hg5 hg6
      exact ⟨rfl, rfl, hr, rfl, hr.symm, hchk,
        Or.inr ⟨rfl, hflag, hg2, hg3, hg4, hg5, hg6⟩⟩

/-- The kept list of the 3D legality filter only contains pseudo-legal
moves. -/
theorem legal_loop3_subset (cp : PlayerColor) :
    ∀ (ms : List Move) (bd : Board) (x : Move),
      x ∈ (legal_loop3 cp ms bd).2 → x ∈ ms := by
  intro ms
  induction ms with
  | nil => intro bd x hx; simp [legal_loop3] at hx
  | cons m rest ih =>
    intro bd x hx
    unfold legal_loop3 at hx
    dsimp only at hx
    split at hx
    · rw [List.mem_cons] at hx
      rcases hx with rfl | hx
      · exact List.mem_cons_self x rest
      · exact List.mem_cons_of_mem _ (ih _ x hx)
    · exact List.mem_cons_of_mem _ (ih _ x hx)

/-- Members of the 3D legal list are pseudo-legal moves of the input
board. -/
theorem legal3_subset_pseudo (b : Board) (x : Move)
    (hx : x ∈ (generate_legal_moves b).2) :
    x ∈ generate_pseudo_legal_moves b := by
  unfold generate_legal_moves at hx
  exact legal_loop3_subset b.current_player _ b x hx

/-- If the queried side has no king anywhere on a 3D board, `find_king`
reports failure and `is_king_in_check` reports "not in check". -/
theorem find_king3_none (b : Board) (q : PlayerColor)
    (h : ∀ (l : Fin 3) (r c : Fin 8),
      ¬((b.squares l r c).piece = KING ∧ (b.squares l r c).color = q)) :
    find_king b q = none ∧ is_king_in_check b q = false := by
  have hfk : find_king b q = none := by
    unfold find_king
    rw [List.find?_eq_none]
    intro p hp
    rw [List.mem_flatMap] at hp
    obtain ⟨l, hl, hp⟩ := hp
    rw [List.mem_flatMap] at hp
    obtain ⟨r, hr, hp⟩ := hp
    rw [List.mem_map] at hp
    obtain ⟨c1, hc1, hp⟩ := hp
    simp at hc1
    obtain ⟨c, hc, rfl⟩ := hc1
    rw [List.mem_range] at hl hr
    subst hp
    simp only [decide_eq_true_eq]
    intro hk
    have hg : b.get (l : Int) (r : Int) (c : Int) =
        b.squares ⟨l, by omega⟩ ⟨r, by omega⟩ ⟨c, by omega⟩ := by
      unfold Board.get
      rw [dif_pos (by unfold is_valid_position; omega)]
      congr 1
    rw [hg] at hk
    exact h ⟨l, by omega⟩ ⟨r, by omega⟩ ⟨c, by omega⟩ hk
  refine ⟨hfk, ?_⟩
  unfold is_king_in_check
  rw [hfk]

/-- The 3D `is_game_over` is true exactly when the current player has zero
legal moves: no fifty-move or missing-king condition is consulted. -/
theorem is_game_over3_iff (b : Board) :
    (is_game_over b).1 = true ↔ (generate_legal_moves b).2.length = 0 := by
  unfold is_game_over
  dsimp only
  rw [decide_eq_true_eq]

/-- With positive depth, the 3D `minimax` on a zero-legal-move position takes
the game-over branch and returns the static evaluation of the mutated board
that the legality generation left behind. -/
theorem minimax3_zero_legal (b : Board) (d : Nat) (alpha beta : Int)
    (mx : Bool) (h0 : (generate_legal_moves b).2.length = 0) :
    (minimax b (d + 1) alpha beta mx).1 =
      evaluate_board (is_game_over b).2 := by
  unfold minimax
  have hgo : (is_game_over b).1 = true := (is_game_over3_iff b).2 h0
  rw [if_pos hgo]

end Chess3D

/-- Claim C1: the spec asserts that make followed by undo of the same legal
move restores every board field.  The 3D engine's simplified `undo_move`
never restores the halfmove clock (nor castling rights, en passant or the
fullmove number): after the legal quiet king move (2,4,4)-(2,4,5) on the
bare-kings board the round trip leaves the clock at 1 instead of 0, so the
result differs from the original board. -/
theorem C1_make_undo_not_inverse :
    Chess3D.mvK3 ∈ (Chess3D.generate_legal_moves Chess3D.BKK3).2 ∧
    Chess3D.undo_move (Chess3D.make_move Chess3D.BKK3 Chess3D.mvK3)
      Chess3D.mvK3 ≠ Chess3D.BKK3 ∧
    (Chess3D.undo_move (Chess3D.make_move Chess3D.BKK3 Chess3D.mvK3)
      Chess3D.mvK3).halfmove_clock = 1 ∧
    Chess3D.BKK3.halfmove_clock = 0 := by decide

/-- Claim C2 (amended): on boards satisfying the reachable-position
invariants the 2D legal-move list is exactly the king-safety filter of the
pseudo-legal list (each kept move carrying the snapshot `make_move` wrote
into it), and in both engines every kept move comes from the pseudo-legal
list.  On unreachable boards the 2D working-copy undo can be inexact, which
is what the counterexample exhibits. -/
theorem C2_legal_filter_characterization
    (b : Chess2D.Board) (hsq : Chess2D.squaresInv b) (hep : Chess2D.epInv b)
    (hcp : b.current_player = WHITE ∨ b.current_player = BLACK)
    (b3 : Chess3D.Board) (m3 : Chess3D.Move)
    (hm3 : m3 ∈ (Chess3D.generate_legal_moves b3).2) :
    Chess2D.generate_legal_moves b =
      ((Chess2D.generate_pseudo_legal_moves b).filter
        (fun m => ! Chess2D.is_king_in_check (Chess2D.make_move b m).1
          b.current_player)).map (fun m => (Chess2D.make_move b m).2) ∧
    m3 ∈ Chess3D.generate_pseudo_legal_moves b3 :=
  ⟨Chess2D.generate_legal_moves_eq_filter b hsq hep hcp,
   Chess3D.legal3_subset_pseudo b3 m3 hm3⟩

theorem C2_witness :
    Chess2D.squaresInv Chess2D.init_board ∧ Chess2D.epInv Chess2D.init_board ∧
    (Chess2D.init_board.current_player = WHITE ∨
      Chess2D.init_board.current_player = BLACK) ∧
    Chess3D.mvK3 ∈ (Chess3D.generate_legal_moves Chess3D.BKK3).2 ∧
    Chess3D.mvK3 ∈ Chess3D.generate_pseudo_legal_moves Chess3D.BKK3 :=
  ⟨by decide, by decide, by decide, by decide,
   (C2_legal_filter_characterization Chess2D.init_board (by decide) (by decide)
     (by decide) Chess3D.BKK3 Chess3D.mvK3 (by decide)).2⟩

/-- Claim C2 is false as stated "for every board position": on the
unreachable board `B0` (the en-passant target square is occupied) the 2D
filter keeps a move after which the mover's own king is attacked, because
the working copy was corrupted by a false-positive en-passant undo on an
earlier candidate. -/
theorem C2_counterexample :
    ∃ m ∈ Chess2D.generate_legal_moves Chess2D.B0,
      Chess2D.is_king_in_check (Chess2D.make_move Chess2D.B0 m).1
        Chess2D.B0.current_player = true := by decide

/-- Claim C3: the spec asserts the legal-move generator leaves the caller's
board unchanged.  The 2D version simulates on a stack copy, but the 3D
version mutates the caller's board in place: filtering the 17 pseudo-legal
king moves of the bare-kings board returns with halfmove_clock 17 (one
unreverted increment per candidate), a board different from the input. -/
theorem C3_legal_gen_mutates_board :
    (Chess3D.generate_legal_moves Chess3D.BKK3).1 ≠ Chess3D.BKK3 ∧
    (Chess3D.generate_legal_moves Chess3D.BKK3).1.halfmove_clock = 17 ∧
    Chess3D.BKK3.halfmove_clock = 0 ∧
    (Chess2D.generate_legal_moves_caller Chess2D.bKK).1 = Chess2D.bKK := by
  exact ⟨by decide, by decide, rfl, rfl⟩

/-- Claim C4: after `make_move` of a generated move, the en-passant target
is set exactly on a two-square pawn advance - to the skipped square (the
intermediate row, the pawn's column, and in 3D the unchanged layer) - and
is cleared by every other move, in both engines. -/
theorem C4_en_passant_target
    (b : Chess2D.Board) (m : Chess2D.Move)
    (hm : m ∈ Chess2D.generate_pseudo_legal_moves b)
    (b3 : Chess3D.Board) (m3 : Chess3D.Move)
    (hm3 : m3 ∈ Chess3D.generate_pseudo_legal_moves b3) :
    (if (b.get m.from_row m.from_col).piece = PAWN ∧
        (m.to_row - m.from_row).natAbs = 2 then
      (Chess2D.make_move b m).1.en_passant_row = (m.from_row + m.to_row) / 2 ∧
      (Chess2D.make_move b m).1.en_passant_col = m.from_col ∧
      m.to_col = m.from_col ∧
      m.to_row = m.from_row + 2 * Chess2D.pawn_dir_of b.current_player
    else
      (Chess2D.make_move b m).1.en_passant_row = -1 ∧
      (Chess2D.make_move b m).1.en_passant_col = -1) ∧
    (if (b3.get m3.from_layer m3.from_row m3.from_col).piece = PAWN ∧
        (m3.to_row - m3.from_row).natAbs = 2 then
      (Chess3D.make_move b3 m3).en_passant_layer = m3.from_layer ∧
      (Chess3D.make_move b3 m3).en_passant_row =
        (m3.from_row + m3.to_row) / 2 ∧
      (Chess3D.make_move b3 m3).en_passant_col = m3.from_col ∧
      m3.to_layer = m3.from_layer ∧ m3.to_col = m3.from_col
    else
      (Chess3D.make_move b3 m3).en_passant_layer = -1 ∧
      (Chess3D.make_move b3 m3).en_passant_row = -1 ∧
      (Chess3D.make_move b3 m3).en_passant_col = -1) :=
  ⟨Chess2D.make_ep_of_pseudo b m hm, Chess3D.make3_ep_of_pseudo b3 m3 hm3⟩

theorem C4_witness :
    Chess2D.mvE2E4 ∈ Chess2D.generate_pseudo_legal_moves Chess2D.init_board ∧
    Chess3D.mvP3 ∈ Chess3D.generate_pseudo_legal_moves Chess3D.Bpawn3 ∧
    (Chess2D.make_move Chess2D.init_board Chess2D.mvE2E4).1.en_passant_row = 5 ∧
    (Chess2D.make_move Chess2D.init_board Chess2D.mvE2E4).1.en_passant_col = 4 ∧
    (Chess3D.make_move Chess3D.Bpawn3 Chess3D.mvP3).en_passant_layer = 0 ∧
    (Chess3D.make_move Chess3D.Bpawn3 Chess3D.mvP3).en_passant_row = 5 ∧
    (Chess3D.make_move Chess3D.Bpawn3 Chess3D.mvP3).en_passant_col = 4 := by
  have h := C4_en_passant_target Chess2D.init_board Chess2D.mvE2E4 (by decide)
    Chess3D.Bpawn3 Chess3D.mvP3 (by decide)
  rw [if_pos (by decide)] at h
  refine ⟨by decide, by decide, h.1.1, h.1.2.1, ?_, ?_, ?_⟩
  · have h2 := h.2
    rw [if_pos (by decide)] at h2
    exact h2.1
  · have h2 := h.2
    rw [if_pos (by decide)] at h2
    exact h2.2.1
  · have h2 := h.2
    rw [if_pos (by decide)] at h2
    exact h2.2.2.1

/-- Claim C5: a castling move (a two-column king move) is emitted only on
layer 0 of the 3D engine with the king on its home square, not in check,
the matching castling-right flag set, the squares between king and rook
empty and the two crossed squares unattacked; the 2D generator never emits
a two-column king move at all. -/
theorem C5_castling_guard
    (b3 : Chess3D.Board) (l r c : Int) (m3 : Chess3D.Move)
    (hm3 : m3 ∈ Chess3D.generate_king_moves b3 l r c)
    (h2 : (m3.to_col - m3.from_col).natAbs = 2)
    (b2 : Chess2D.Board) (r2 c2 : Int) (m2 : Chess2D.Move)
    (hm2 : m2 ∈ Chess2D.generate_king_moves b2 r2 c2) :
    (l = 0 ∧ c = 4 ∧
      r = (if (b3.get l r c).color = WHITE then (7 : Int) else 0) ∧
      m3.to_layer = l ∧ m3.to_row = r ∧
      Chess3D.is_king_in_check b3 (b3.get l r c).color = false ∧
      ((m3.to_col = 6 ∧
          (if (b3.get l r c).color = WHITE then b3.white_castle_kingside
            else b3.black_castle_kingside) = true ∧
          (b3.get 0 r 5).piece = EMPTY ∧ (b3.get 0 r 6).piece = EMPTY ∧
          Chess3D.is_square_attacked b3 0 r 5
            (if (b3.get l r c).color = WHITE then BLACK else WHITE) = false ∧
          Chess3D.is_square_attacked b3 0 r 6
            (if (b3.get l r c).color = WHITE then BLACK else WHITE) = false) ∨
        (m3.to_col = 2 ∧
          (if (b3.get l r c).color = WHITE then b3.white_castle_queenside
            else b3.black_castle_queenside) = true ∧
          (b3.get 0 r 3).piece = EMPTY ∧ (b3.get 0 r 2).piece = EMPTY ∧
          (b3.get 0 r 1).piece = EMPTY ∧
          Chess3D.is_square_attacked b3 0 r 3
            (if (b3.get l r c).color = WHITE then BLACK else WHITE) = false ∧
          Chess3D.is_square_attacked b3 0 r 2
            (if (b3.get l r c).color = WHITE then BLACK else WHITE) = false))) ∧
    (m2.to_col - m2.from_col).natAbs ≤ 1 :=
  ⟨Chess3D.king3_castle_guard b3 l r c m3 hm3 h2,
   Chess2D.king2_gen_no_castle b2 r2 c2 m2 hm2⟩

theorem C5_witness :
    Chess3D.mvC3 ∈ Chess3D.generate_king_moves Chess3D.Bcastle3 0 0 4 ∧
    (Chess3D.mvC3.to_col - Chess3D.mvC3.from_col).natAbs = 2 ∧
    Chess2D.mvKK2 ∈ Chess2D.generate_king_moves Chess2D.bKK 4 4 ∧
    Chess3D.is_king_in_check Chess3D.Bcastle3
      (Chess3D.Bcastle3.get 0 0 4).color = false ∧
    (Chess2D.mvKK2.to_col - Chess2D.mvKK2.from_col).natAbs ≤ 1 := by
  have h := C5_castling_guard Chess3D.Bcastle3 0 0 4 Chess3D.mvC3 (by decide)
    (by decide) Chess2D.bKK 4 4 Chess2D.mvKK2 (by decide)
  exact ⟨by decide, by decide, by decide, h.1.2.2.2.2.2.1, h.2⟩

/-- Claim C6 (amended): on a zero-legal-move position the 2D `minimax`
returns the mate score signed by the side to move - `-(MATE_SCORE + depth)`
when White is to move and in check, `+(MATE_SCORE + depth)` when Black is -
and 0 when not in check; the 3D `minimax` instead takes its game-over
branch and returns the static evaluation of the board its legality
generation mutated. -/
theorem C6_no_legal_moves_score
    (b : Chess2D.Board) (d : Nat) (alpha beta : Int) (mx : Bool)
    (h0 : (Chess2D.generate_legal_moves b).length = 0)
    (b3 : Chess3D.Board) (d3 : Nat) (alpha3 beta3 : Int) (mx3 : Bool)
    (h3 : (Chess3D.generate_legal_moves b3).2.length = 0) :
    Chess2D.minimax b d alpha beta mx =
      (if Chess2D.is_king_in_check b b.current_player then
        (if b.current_player = WHITE then -Chess2D.MATE_SCORE - (d : Int)
        else Chess2D.MATE_SCORE + (d : Int))
      else 0) ∧
    (Chess3D.minimax b3 (d3 + 1) alpha3 beta3 mx3).1 =
      Chess3D.evaluate_board (Chess3D.is_game_over b3).2 :=
  ⟨Chess2D.minimax2_zero_legal b d alpha beta mx h0,
   Chess3D.minimax3_zero_legal b3 d3 alpha3 beta3 mx3 h3⟩

theorem C6_witness :
    (Chess2D.generate_legal_moves Chess2D.Bmate2).length = 0 ∧
    (Chess3D.generate_legal_moves Chess3D.Bmate3).2.length = 0 ∧
    Chess2D.minimax Chess2D.Bmate2 1 (-2000000) 2000000 false = 999901 ∧
    (Chess3D.minimax Chess3D.Bmate3 1 (-2000000) 2000000 false).1 = 955 := by
  have h := C6_no_legal_moves_score Chess2D.Bmate2 1 (-2000000) 2000000 false
    (by decide) Chess3D.Bmate3 0 (-2000000) 2000000 false (by decide)
  exact ⟨by decide, by decide, h.1.trans (by decide), h.2.trans (by decide)⟩

/-- Claim C6 is false as stated: on the 3D checkmate board `Bmate3` (zero
legal moves, side to move in check) `minimax` at depth 1 returns the static
material evaluation 955, which is neither `±(MATE_SCORE + depth)` nor 0. -/
theorem C6_counterexample :
    (Chess3D.generate_legal_moves Chess3D.Bmate3).2.length = 0 ∧
    Chess3D.is_king_in_check Chess3D.Bmate3 Chess3D.Bmate3.current_player =
      true ∧
    (Chess3D.minimax Chess3D.Bmate3 1 (-2000000) 2000000 false).1 = 955 ∧
    (955 : Int) ≠ Chess2D.MATE_SCORE + 1 ∧
    (955 : Int) ≠ -(Chess2D.MATE_SCORE + 1) ∧ (955 : Int) ≠ 0 := by decide

/-- Claim C7 (amended): the 2D `is_game_over` is true exactly when the side
to move has zero legal moves, the halfmove clock is at least 100, or a king
is missing; the 3D `is_game_over` is true exactly when the side to move has
zero legal moves, with no fifty-move or missing-king condition at all. -/
theorem C7_game_over_conditions (b2 : Chess2D.Board) (b3 : Chess3D.Board) :
    ((Chess2D.is_game_over b2).1 = true ↔
      ((Chess2D.generate_legal_moves b2).length = 0 ∨
        b2.halfmove_clock ≥ 100 ∨
        (Chess2D.find_king b2 WHITE).isNone = true ∨
        (Chess2D.find_king b2 BLACK).isNone = true)) ∧
    ((Chess3D.is_game_over b3).1 = true ↔
      (Chess3D.generate_legal_moves b3).2.length = 0) :=
  ⟨Chess2D.is_game_over2_iff b2, Chess3D.is_game_over3_iff b3⟩

/-- Claim C7 is false as stated: the 3D `is_game_over` ignores the halfmove
clock, returning false on a bare-kings board whose clock already reads
100. -/
theorem C7_counterexample :
    Chess3D.Bclock3.halfmove_clock = 100 ∧
    (Chess3D.is_game_over Chess3D.Bclock3).1 = false := by decide

/-- Claim C8: the 2D legal-move generator returns exactly 20 moves on the
initial position, where White is to move. -/
theorem C8_initial_position_20_moves :
    Chess2D.init_board.current_player = WHITE ∧
    (Chess2D.generate_legal_moves Chess2D.init_board).length = 20 := by decide

/-- Claim C9: on any board with no king of the queried colour - reachable
or not - `find_king` reports "not found" and `is_king_in_check` reports
"not in check", in both engines. -/
theorem C9_missing_king
    (b2 : Chess2D.Board) (q2 : PlayerColor)
    (h2 : ∀ (r c : Fin 8),
      ¬((b2.squares r c).piece = KING ∧ (b2.squares r c).color = q2))
    (b3 : Chess3D.Board) (q3 : PlayerColor)
    (h3 : ∀ (l : Fin 3) (r c : Fin 8),
      ¬((b3.squares l r c).piece = KING ∧ (b3.squares l r c).color = q3)) :
    (Chess2D.find_king b2 q2 = none ∧
      Chess2D.is_king_in_check b2 q2 = false) ∧
    (Chess3D.find_king b3 q3 = none ∧
      Chess3D.is_king_in_check b3 q3 = false) :=
  ⟨Chess2D.find_king2_none b2 q2 h2, Chess3D.find_king3_none b3 q3 h3⟩

theorem C9_witness :
    (∀ (r c : Fin 8), ¬((Chess2D.E2.squares r c).piece = KING ∧
      (Chess2D.E2.squares r c).color = WHITE)) ∧
    (∀ (l : Fin 3) (r c : Fin 8), ¬((Chess3D.E3.squares l r c).piece = KING ∧
      (Chess3D.E3.squares l r c).color = WHITE)) ∧
    Chess2D.find_king Chess2D.E2 WHITE = none ∧
    Chess2D.is_king_in_check Chess2D.E2 WHITE = false ∧
    Chess3D.find_king Chess3D.E3 WHITE = none ∧
    Chess3D.is_king_in_check Chess3D.E3 WHITE = false := by
  have h := C9_missing_king Chess2D.E2 WHITE (by decide) Chess3D.E3 WHITE
    (by decide)
  exact ⟨by decide, by decide, h.1.1, h.1.2, h.2.1, h.2.2⟩

/-- Claim C10: the 2D move generator never emits a castling move - no move
of the legal list whose origin square holds a king moves it two columns -
even though `make_move` contains rook-relocation code for such a move. -/
theorem C10_no_castle_2d (b : Chess2D.Board) (m : Chess2D.Move)
    (hm : m ∈ Chess2D.generate_legal_moves b)
    (hking : (b.get m.from_row m.from_col).piece = KING) :
    (m.to_col - m.from_col).natAbs ≠ 2 :=
  Chess2D.legal_no_castle b m hm hking

theorem C10_witness :
    Chess2D.mvKK ∈ Chess2D.generate_legal_moves Chess2D.bKK ∧
    (Chess2D.bKK.get Chess2D.mvKK.from_row Chess2D.mvKK.from_col).piece =
      KING ∧
    (Chess2D.mvKK.to_col - Chess2D.mvKK.from_col).natAbs ≠ 2 :=
  ⟨by decide, by decide,
   C10_no_castle_2d Chess2D.bKK Chess2D.mvKK (by decide) (by decide)⟩
